import Mathlib

/-!
Verification of the UNP/UPN QR → EPC SEPA QR converter.

Shallow embedding of the core parsing and encoding code:
  * `unp_qr_decode.py` — UPN QR payload parser and batch dedup,
  * `epc_qr.py` — EPC069-12 "BCD" payload encoder,
  * `pdf_qr_extract.py` — byte-buffer → text normalization,
  * `upn_parser.py` — the three fallback text-layout parsers.

Strings are modelled as `List Char` (`Str`); Python byte buffers as
`List Nat` (byte values 0–255); Python floats as exact rationals `ℚ`
(every operation the code performs on amounts is exact on the values
exercised here).  Regular expressions are modelled by hand-rolled
deterministic matchers: each regex used in the source only combines
disjoint character classes, so the translation is direct.
-/

set_option maxRecDepth 10000

abbrev Str := List Char

/-- Python whitespace for `str.strip` / `\s` (ASCII subset, which is all
the repository's data contains): space, tab, newline, carriage return,
vertical tab, form feed. -/
def pyIsSpace (c : Char) : Bool :=
  c = ' ' || c = '\t' || c = '\n' || c = '\r' || c = '\x0b' || c = '\x0c'

/-- Python `s.lstrip()` on our list model. -/
def stripLeft (s : Str) : Str := s.dropWhile pyIsSpace

/-- Python `s.rstrip()` on our list model. -/
def stripRight (s : Str) : Str := (s.reverse.dropWhile pyIsSpace).reverse

/-- Python `s.strip()`. -/
def pyStrip (s : Str) : Str := stripLeft (stripRight s)

/-- Python `s.split("\n")`: always returns at least one piece. -/
def splitOnNL : Str → List Str
  | [] => [[]]
  | c :: cs =>
    if c = '\n' then [] :: splitOnNL cs
    else
      match splitOnNL cs with
      | r :: rs => (c :: r) :: rs
      | [] => [[c]]

/-- Python `"\n".join(lines)` (inverse of the split above). -/
def joinNL : List Str → Str
  | [] => []
  | [l] => l
  | l :: ls => l ++ '\n' :: joinNL ls

/-- Python `" ".join(parts)`. -/
def joinSpace : List Str → Str
  | [] => []
  | [l] => l
  | l :: ls => l ++ ' ' :: joinSpace ls

/-- Python `x or y` on strings: `y` when `x` is empty. -/
def pyOr (x y : Str) : Str := if x = [] then y else x

/-- Python `re.sub(r"\s+", "", s)`: remove all whitespace. -/
def removeWhitespace (s : Str) : Str := s.filter (fun c => !pyIsSpace c)

/-- Python `s.replace(" ", "")`: remove space characters only. -/
def removeSpaces (s : Str) : Str := s.filter (fun c => c ≠ ' ')

/-- Python `re.sub(r"\D", "", s)`: keep only (ASCII) decimal digits. -/
def removeNonDigits (s : Str) : Str := s.filter (fun c => c.isDigit)

/-- Python `re.sub(r"\s+", " ", s)`: collapse each whitespace run to one space.
The Boolean flag records whether we are inside a whitespace run. -/
def collapseWSGo : Bool → Str → Str
  | _, [] => []
  | inRun, c :: t =>
    if pyIsSpace c then
      if inRun then collapseWSGo true t else ' ' :: collapseWSGo true t
    else c :: collapseWSGo false t

def collapseWS (s : Str) : Str := collapseWSGo false s

/-- Python `s.upper()` (ASCII letters; `Char.toUpper` matches Python on
the basic latin range, which is all this repository manipulates). -/
def pyUpper (s : Str) : Str := s.map Char.toUpper

/-- Python `s.isdigit()` (ASCII digits): nonempty and all digits. -/
def pyIsDigitStr (s : Str) : Bool := !s.isEmpty && s.all (fun c => c.isDigit)

/-- Does `p` start the string `s`? -/
def strStarts : Str → Str → Bool
  | [], _ => true
  | _ :: _, [] => false
  | p :: ps, s :: ss => p = s && strStarts ps ss

/-- Python `needle in hay` substring test. -/
def isSubstr (needle hay : Str) : Bool :=
  match hay with
  | [] => needle.isEmpty
  | _ :: t => strStarts needle hay || isSubstr needle t

/-- Numeric value of a digit string (Python `int` on an all-digit string). -/
def natOfDigits (s : Str) : Nat := s.foldl (fun a c => 10 * a + (c.toNat - 48)) 0

/-- Decimal digits of `n` (via `Nat.repr`). -/
def natDigits (n : Nat) : Str := (Nat.repr n).data

/-! ## The payment record (`upn_parser.UPNPayment`) -/

structure UPNPayment where
  recipient_name : Str
  recipient_address : Str
  iban : Str
  amount : ℚ
  reference : Str
  purpose : Str
  payer_reference : Str
deriving DecidableEq, Repr

/-! ## `unp_qr_decode.py` -/

/-- The function `_normalize_iban` (same body in `unp_qr_decode.py` and `upn_parser.py`):
`re.sub(r"\s+", "", iban.strip()).upper()`. -/
def normalize_iban (s : Str) : Str := pyUpper (removeWhitespace (pyStrip s))

/-- The function `_parse_upn_amount`: strip, drop non-digits, require exactly 11 digits,
value is the integer divided by 100.  (`int` on an 11-digit string cannot
fail, so the `except ValueError` branch is dead.) -/
def parse_upn_amount (z : Str) : Option ℚ :=
  let s := removeNonDigits (pyStrip z)
  if s.length = 11 then some ((natOfDigits s : ℚ) / 100) else none

/-- Lines of a UPN QR payload: strip the whole payload, split on `\n`,
strip each line, and drop a trailing 3-digit checksum line when there are
more than 19 lines (`unp_qr_decode.py` lines 50–53). -/
def upnLines (qr : Str) : List Str :=
  let lines := (splitOnNL (pyStrip qr)).map pyStrip
  if lines.length > 19 ∧ pyIsDigitStr (lines.getLastD []) ∧ (lines.getLastD []).length = 3 then
    lines.dropLast
  else lines

/-- Field extraction of `parse_unp_qr_content` once all guards passed
(`unp_qr_decode.py` lines 67–82): name from line 16 (placeholder
"Recipient" when empty), address = join of lines 17–18 dropping empties,
reference from line 15, purpose = text (line 12) or code (line 11,
4 chars) or "UPN payment". -/
def mkUpnRecord (lines : List Str) (z : ℚ) : UPNPayment :=
  { recipient_name := pyOr (pyStrip (pyOr (lines.getD 16 []) [])) "Recipient".data
    recipient_address :=
      pyStrip (joinSpace (([lines.getD 17 [], lines.getD 18 []]).filter (fun l => l ≠ [])))
    iban := normalize_iban (lines.getD 14 [])
    amount := z
    reference := pyStrip (pyOr (lines.getD 15 []) [])
    purpose := pyOr (pyStrip (pyOr (lines.getD 12 []) []))
      (pyOr ((pyStrip (pyOr (lines.getD 11 []) [])).take 4) "UPN payment".data)
    payer_reference := [] }

lemma mkUpnRecord_payer (lines : List Str) (z : ℚ) :
    (mkUpnRecord lines z).payer_reference = [] := rfl

lemma mkUpnRecord_name (lines : List Str) (z : ℚ) :
    (mkUpnRecord lines z).recipient_name =
      pyOr (pyStrip (pyOr (lines.getD 16 []) [])) "Recipient".data := rfl

lemma mkUpnRecord_purpose (lines : List Str) (z : ℚ) :
    (mkUpnRecord lines z).purpose =
      pyOr (pyStrip (pyOr (lines.getD 12 []) []))
        (pyOr ((pyStrip (pyOr (lines.getD 11 []) [])).take 4) "UPN payment".data) := rfl

/-- Validation of `parse_unp_qr_content` after the line list has been
computed (`unp_qr_decode.py` lines 54–66; the source computes
`iban = _normalize_iban(lines[14])` once and reuses it, here it is
inlined in the guard and in `mkUpnRecord`). -/
def parseFromLines (lines : List Str) : Option UPNPayment :=
  if lines.length < 19 then none
  else if lines.getD 0 [] ≠ "UPNQR".data then none
  else
    match parse_upn_amount (lines.getD 8 []) with
    | none => none
    | some z =>
      if z < 0 then none
      else if ¬ (strStarts "SI".data (normalize_iban (lines.getD 14 [])) = true) ∨
          (normalize_iban (lines.getD 14 [])).length ≠ 19 then none
      else some (mkUpnRecord lines z)

/-- The function `parse_unp_qr_content`: `None` for empty/whitespace input, otherwise
parse the (checksum-stripped) line list. -/
def parse_unp_qr_content (qr : Str) : Option UPNPayment :=
  if qr = [] ∨ pyStrip qr = [] then none
  else parseFromLines (upnLines qr)

/-- Dedup key used by the batch parser: `(iban, reference, amount)`. -/
def pkey (p : UPNPayment) : Str × Str × ℚ := (p.iban, p.reference, p.amount)

/-- Loop of `parse_all_unp_qr_contents`: `seen` is the set of keys already
emitted. -/
def parseAllGo : List Str → List (Str × Str × ℚ) → List UPNPayment
  | [], _ => []
  | s :: rest, seen =>
    match parse_unp_qr_content s with
    | none => parseAllGo rest seen
    | some p =>
      if pkey p ∈ seen then parseAllGo rest seen
      else p :: parseAllGo rest (pkey p :: seen)

/-- The function `parse_all_unp_qr_contents`. -/
def parse_all_unp_qr_contents (ss : List Str) : List UPNPayment := parseAllGo ss []

/-! ## Basic lemmas about the string helpers -/

lemma pyIsSpace_not_isDigit {c : Char} (h : pyIsSpace c = true) : c.isDigit = false := by
  simp only [pyIsSpace, Bool.or_eq_true, decide_eq_true_eq] at h
  rcases h with ((((h | h) | h) | h) | h) | h <;> subst h <;> decide

lemma filter_stripLeft (f : Char → Bool) (hf : ∀ c, pyIsSpace c = true → f c = false)
    (l : Str) : (stripLeft l).filter f = l.filter f := by
  induction l with
  | nil => rfl
  | cons c t ih =>
    by_cases h : pyIsSpace c = true
    · have h1 : stripLeft (c :: t) = stripLeft t := by
        simp [stripLeft, List.dropWhile_cons, h]
      rw [h1, ih, List.filter_cons, hf c h]
      simp
    · have h1 : stripLeft (c :: t) = c :: t := by
        simp [stripLeft, List.dropWhile_cons, h]
      rw [h1]

lemma filter_stripRight (f : Char → Bool) (hf : ∀ c, pyIsSpace c = true → f c = false)
    (l : Str) : (stripRight l).filter f = l.filter f := by
  have := filter_stripLeft f hf l.reverse
  simp only [stripRight]
  rw [List.filter_reverse]
  simpa [stripLeft, List.filter_reverse] using congrArg List.reverse this

lemma filter_pyStrip (f : Char → Bool) (hf : ∀ c, pyIsSpace c = true → f c = false)
    (l : Str) : (pyStrip l).filter f = l.filter f := by
  rw [pyStrip, filter_stripLeft f hf, filter_stripRight f hf]

lemma removeNonDigits_pyStrip (l : Str) : removeNonDigits (pyStrip l) = removeNonDigits l :=
  filter_pyStrip _ (fun _ h => pyIsSpace_not_isDigit h) l

lemma removeWhitespace_pyStrip (l : Str) : removeWhitespace (pyStrip l) = removeWhitespace l :=
  filter_pyStrip _ (fun _ h => by simp [h]) l

lemma normalize_iban_eq (l : Str) : normalize_iban l = pyUpper (removeWhitespace l) := by
  rw [normalize_iban, removeWhitespace_pyStrip]

lemma parse_upn_amount_of_len11 {l : Str} (h : (removeNonDigits l).length = 11) :
    parse_upn_amount l = some ((natOfDigits (removeNonDigits l) : ℚ) / 100) := by
  rw [parse_upn_amount, removeNonDigits_pyStrip, if_pos h]

lemma parse_upn_amount_none_of_len {l : Str} (h : (removeNonDigits l).length ≠ 11) :
    parse_upn_amount l = none := by
  rw [parse_upn_amount, removeNonDigits_pyStrip, if_neg h]

lemma upn_amount_nonneg (n : Nat) : ¬ ((n : ℚ) / 100 < 0) := by
  rw [not_lt]
  positivity

lemma pyStrip_nil_upnLines {s : Str} (h : pyStrip s = []) : upnLines s = [[]] := by
  simp only [upnLines, h]
  decide

lemma pyOr_ne_nil {x y : Str} (hy : y ≠ []) : pyOr x y ≠ [] := by
  unfold pyOr
  split
  · exact hy
  · assumption

/-! ## C1 – C3, C10: the UPN QR payload parser -/

/-- C1: for every UNP QR payload passing validation (≥ 19 lines after
optional checksum stripping, line 0 = "UPNQR", line 8 with exactly 11
digits after dropping non-digits, line 14 normalizing to an `SI…` string
of length 19), `parse_unp_qr_content` returns a record whose amount is
the 11-digit value divided by 100 and whose iban is line 14 with all
whitespace removed and uppercased. -/
theorem C1_valid_parse_amount_iban (s : Str)
    (h19 : 19 ≤ (upnLines s).length)
    (h0 : (upnLines s).getD 0 [] = "UPNQR".data)
    (h8 : (removeNonDigits ((upnLines s).getD 8 [])).length = 11)
    (h14a : strStarts "SI".data (pyUpper (removeWhitespace ((upnLines s).getD 14 []))) = true)
    (h14b : (pyUpper (removeWhitespace ((upnLines s).getD 14 []))).length = 19) :
    ∃ p, parse_unp_qr_content s = some p ∧
      p.amount = (natOfDigits (removeNonDigits ((upnLines s).getD 8 [])) : ℚ) / 100 ∧
      p.iban = pyUpper (removeWhitespace ((upnLines s).getD 14 [])) := by
  have hs : ¬ (s = [] ∨ pyStrip s = []) := by
    rintro (rfl | h)
    · rw [pyStrip_nil_upnLines (show pyStrip [] = [] from rfl)] at h19; simp at h19
    · rw [pyStrip_nil_upnLines h] at h19; simp at h19
  rw [parse_unp_qr_content, if_neg hs, parseFromLines, if_neg (by omega),
    if_neg (not_not_intro h0), parse_upn_amount_of_len11 h8]
  dsimp only
  rw [if_neg (upn_amount_nonneg _),
    if_neg (by rw [normalize_iban_eq]; push_neg; exact ⟨h14a, h14b⟩)]
  exact ⟨mkUpnRecord (upnLines s) _, rfl, rfl, normalize_iban_eq _⟩

/-- Witness for C1 at the spec's literal 19-line payload. -/
theorem C1_witness :
    ∃ p, parse_unp_qr_content ("UPNQR\n\n\n\n\n\n\n\n00000002874\n\n\nOTHR\nPrispevek za DO\n\nSI56110022334455667\nSI19 12345-67890\nJANEZ NOVAK\nDUNAJSKA 1\nLJUBLJANA\n".data) = some p ∧
      p.amount = (natOfDigits (removeNonDigits ((upnLines ("UPNQR\n\n\n\n\n\n\n\n00000002874\n\n\nOTHR\nPrispevek za DO\n\nSI56110022334455667\nSI19 12345-67890\nJANEZ NOVAK\nDUNAJSKA 1\nLJUBLJANA\n".data)).getD 8 [])) : ℚ) / 100 ∧
      p.iban = pyUpper (removeWhitespace ((upnLines ("UPNQR\n\n\n\n\n\n\n\n00000002874\n\n\nOTHR\nPrispevek za DO\n\nSI56110022334455667\nSI19 12345-67890\nJANEZ NOVAK\nDUNAJSKA 1\nLJUBLJANA\n".data)).getD 14 [])) :=
  C1_valid_parse_amount_iban _ (by decide) (by decide) (by decide) (by decide) (by decide)

/-- C2: any payload that is empty after trimming, has fewer than 19 lines
after optional checksum stripping, lacks "UPNQR" at line 0, whose amount
field does not hold exactly 11 digits, or whose IBAN does not normalize
to an `SI…` string of exactly 19 characters, parses to `none` (the parser
is total, so it never raises, and it returns no partial record). -/
theorem C2_invalid_returns_none (s : Str)
    (h : pyStrip s = [] ∨
         (upnLines s).length < 19 ∨
         (upnLines s).getD 0 [] ≠ "UPNQR".data ∨
         (removeNonDigits ((upnLines s).getD 8 [])).length ≠ 11 ∨
         ¬ (strStarts "SI".data (pyUpper (removeWhitespace ((upnLines s).getD 14 []))) = true) ∨
         (pyUpper (removeWhitespace ((upnLines s).getD 14 []))).length ≠ 19) :
    parse_unp_qr_content s = none := by
  rw [parse_unp_qr_content]
  by_cases hs : s = [] ∨ pyStrip s = []
  · rw [if_pos hs]
  · rw [if_neg hs, parseFromLines]
    have hstrip : ¬ pyStrip s = [] := fun hh => hs (Or.inr hh)
    by_cases h19 : (upnLines s).length < 19
    · rw [if_pos h19]
    · rw [if_neg h19]
      by_cases h0 : (upnLines s).getD 0 [] ≠ "UPNQR".data
      · rw [if_pos h0]
      · rw [if_neg h0]
        push_neg at h0
        by_cases h8 : (removeNonDigits ((upnLines s).getD 8 [])).length = 11
        · rw [parse_upn_amount_of_len11 h8]
          dsimp only
          rw [if_neg (upn_amount_nonneg _)]
          by_cases h14 : ¬ (strStarts "SI".data (normalize_iban ((upnLines s).getD 14 [])) = true) ∨
              (normalize_iban ((upnLines s).getD 14 [])).length ≠ 19
          · rw [if_pos h14]
          · exfalso
            rw [normalize_iban_eq] at h14
            push_neg at h14
            rcases h with h | h | h | h | h | h
            · exact hstrip h
            · omega
            · exact h h0
            · exact h h8
            · exact h h14.1
            · exact h h14.2
        · rw [parse_upn_amount_none_of_len h8]

/-- Witness for C2: a one-line payload (too few lines) parses to `none`. -/
theorem C2_witness : parse_unp_qr_content "hello".data = none :=
  C2_invalid_returns_none _ (Or.inr (Or.inl (by decide)))

/-- Counterexample to C3: on the spec's literal payload the parser keeps
the internal space of line 15 (`reference = (lines[15] or "").strip()`
only trims the ends), so the reference is "SI19 12345-67890", not the
space-stripped "SI1912345-67890" the claim states. -/
theorem C3_counterexample :
    (parse_unp_qr_content ("UPNQR\n\n\n\n\n\n\n\n00000002874\n\n\nOTHR\nPrispevek za DO\n\nSI56110022334455667\nSI19 12345-67890\nJANEZ NOVAK\nDUNAJSKA 1\nLJUBLJANA\n".data)).map UPNPayment.reference
      = some "SI19 12345-67890".data ∧
    "SI19 12345-67890".data ≠ "SI1912345-67890".data := by
  constructor
  · with_unfolding_all decide
  · decide

/-- C3 as amended: parsing the literal 19-line payload yields amount
28.74, iban "SI56110022334455667", reference "SI19 12345-67890" (internal
space retained, only the ends are stripped), recipient "JANEZ NOVAK",
purpose "Prispevek za DO". -/
theorem C3_amended_literal_parse :
    parse_unp_qr_content ("UPNQR\n\n\n\n\n\n\n\n00000002874\n\n\nOTHR\nPrispevek za DO\n\nSI56110022334455667\nSI19 12345-67890\nJANEZ NOVAK\nDUNAJSKA 1\nLJUBLJANA\n".data) =
      some { recipient_name := "JANEZ NOVAK".data
             recipient_address := "DUNAJSKA 1 LJUBLJANA".data
             iban := "SI56110022334455667".data
             amount := (2874 : ℚ) / 100
             reference := "SI19 12345-67890".data
             purpose := "Prispevek za DO".data
             payer_reference := [] } := by
  with_unfolding_all decide

/-- C10: every record the QR parser returns has an empty payer reference,
a nonempty recipient name, and a nonempty purpose. -/
theorem C10_qr_record_invariant (s : Str) (p : UPNPayment)
    (h : parse_unp_qr_content s = some p) :
    p.payer_reference = [] ∧ p.recipient_name ≠ [] ∧ p.purpose ≠ [] := by
  rw [parse_unp_qr_content] at h
  split at h
  · exact absurd h (by simp)
  · rw [parseFromLines] at h
    split at h
    · exact absurd h (by simp)
    · split at h
      · exact absurd h (by simp)
      · split at h
        · exact absurd h (by simp)
        · split at h
          · exact absurd h (by simp)
          · split at h
            · exact absurd h (by simp)
            · rw [Option.some_inj] at h
              subst h
              refine ⟨mkUpnRecord_payer _ _, ?_, ?_⟩
              · rw [mkUpnRecord_name]
                exact pyOr_ne_nil (by decide)
              · rw [mkUpnRecord_purpose]
                exact pyOr_ne_nil (pyOr_ne_nil (by decide))

/-- The record the literal payload parses to (used by the C10 witness). -/
def upnRecC3 : UPNPayment :=
  { recipient_name := "JANEZ NOVAK".data
    recipient_address := "DUNAJSKA 1 LJUBLJANA".data
    iban := "SI56110022334455667".data
    amount := (2874 : ℚ) / 100
    reference := "SI19 12345-67890".data
    purpose := "Prispevek za DO".data
    payer_reference := [] }

/-- Witness for C10 at the literal payload. -/
theorem C10_witness :
    upnRecC3.payer_reference = [] ∧ upnRecC3.recipient_name ≠ [] ∧ upnRecC3.purpose ≠ [] :=
  C10_qr_record_invariant
    ("UPNQR\n\n\n\n\n\n\n\n00000002874\n\n\nOTHR\nPrispevek za DO\n\nSI56110022334455667\nSI19 12345-67890\nJANEZ NOVAK\nDUNAJSKA 1\nLJUBLJANA\n".data)
    upnRecC3 (by with_unfolding_all decide)

/-! ## `epc_qr.py`: the EPC069-12 "BCD" payload encoder -/

/-- Python `f"{x:.2f}"`: fixed two decimals, period separator, minus sign
in front.  Rounding is modelled as round-half-up on the exact rational;
Python rounds the binary double half-to-even, but every amount this
repository produces is an exact multiple of 1/100, where the two agree. -/
def format2 (q : ℚ) : Str :=
  let n : ℤ := round (q * 100)
  (if n < 0 then ['-'] else []) ++ natDigits (n.natAbs / 100) ++
    '.' :: (if n.natAbs % 100 < 10 then '0' :: natDigits (n.natAbs % 100)
            else natDigits (n.natAbs % 100))

/-- The ordered 11 logical fields of `build_epc_payload`
(`epc_qr.py` lines 22–48): BCD header, version 002, charset 1 (UTF-8),
SCT, stripped BIC, name[:70], IBAN space-stripped uppercased [:34],
"EUR" + amount (the source first builds a comma variant of the amount
string and immediately overwrites it with the period variant, so only the
period variant survives), purpose[:4] when purpose is nonempty,
reference[:35] (the source re-truncates when longer than 35, which a
taken prefix never is — kept as in the source), purpose[:70]. -/
def epcFullParts (p : UPNPayment) (bic : Option Str) : List Str :=
  ["BCD".data, "002".data, "1".data, "SCT".data,
   pyStrip (bic.getD []),
   (pyOr p.recipient_name []).take 70,
   (pyUpper (removeSpaces (pyOr p.iban []))).take 34,
   "EUR".data ++ format2 p.amount,
   (if p.purpose ≠ [] then (pyOr p.purpose []).take 4 else []),
   (if ((pyOr p.reference []).take 35).length > 35 then ((pyOr p.reference []).take 35).take 35
    else (pyOr p.reference []).take 35),
   (pyOr p.purpose []).take 70]

/-- Maximal all-empty suffix removal: helper for the source's
`while len(parts) > 1 and parts[-1] == "": parts.pop()`. -/
def dropTrailEmpties (l : List Str) : List Str :=
  (l.reverse.dropWhile (fun x => x = [])).reverse

/-- The trimmed field list: the source's while loop pops trailing empty
fields but never below one element, i.e. it removes the maximal all-empty
suffix except that a single (empty) element survives when every field is
empty. -/
def build_epc_parts (p : UPNPayment) (bic : Option Str) : List Str :=
  match dropTrailEmpties (epcFullParts p bic) with
  | [] => (epcFullParts p bic).take 1
  | ys => ys

/-- The function `build_epc_payload`: the trimmed fields joined by LF. -/
def build_epc_payload (p : UPNPayment) (bic : Option Str) : Str :=
  joinNL (build_epc_parts p bic)

/-- The record described by claim C4 (the spec's literal scenario). -/
def recC4 : UPNPayment :=
  { recipient_name := "JANEZ NOVAK".data
    recipient_address := "DUNAJSKA 1 LJUBLJANA".data
    iban := "SI56110022334455667".data
    amount := (2874 : ℚ) / 100
    reference := "SI1912345-67890".data
    purpose := "Prispevek za DO".data
    payer_reference := [] }

/-- Counterexample to C4: the payload does not begin with the claimed
string, because the encoder fills the purpose-code slot with
`p.purpose[:4]` = "Pris" (the record has no separate purpose-code field),
not "OTHR". -/
theorem C4_counterexample :
    (build_epc_payload recC4 none).take
        ("BCD\n002\n1\nSCT\n\nJANEZ NOVAK\nSI56110022334455667\nEUR28.74\nOTHR\nSI1912345-67890\nPrispevek za DO".data).length
      ≠ "BCD\n002\n1\nSCT\n\nJANEZ NOVAK\nSI56110022334455667\nEUR28.74\nOTHR\nSI1912345-67890\nPrispevek za DO".data := by
  with_unfolding_all decide

/-- C4 as amended: encoding the claim's record with empty BIC yields a
payload beginning (in fact equal to) the claimed string with "Pris"
(= purpose[:4]) in the purpose-code slot instead of "OTHR". -/
theorem C4_amended_epc_payload :
    build_epc_payload recC4 none =
      "BCD\n002\n1\nSCT\n\nJANEZ NOVAK\nSI56110022334455667\nEUR28.74\nPris\nSI1912345-67890\nPrispevek za DO".data := by
  with_unfolding_all decide

lemma dte_append_nil (l : List Str) : dropTrailEmpties (l ++ [[]]) = dropTrailEmpties l := by
  simp [dropTrailEmpties, List.dropWhile_cons]

lemma dte_append_replicate (l : List Str) (k : Nat) :
    dropTrailEmpties (l ++ List.replicate k []) = dropTrailEmpties l := by
  induction k generalizing l with
  | zero => simp
  | succ k ih =>
    rw [List.replicate_succ, List.append_cons, ih (l ++ [[]]), dte_append_nil]

lemma dte_last_ne (l : List Str) (x : Str) (hx : x ≠ []) :
    dropTrailEmpties (l ++ [x]) = l ++ [x] := by
  simp [dropTrailEmpties, List.dropWhile_cons, hx]

lemma remit_simp (x : Str) :
    (if ((x.take 35).length > 35) then (x.take 35).take 35 else x.take 35) = x.take 35 :=
  if_neg (by simp [List.length_take])

/-- C7: encoding any record with an empty purpose and empty BIC yields a
field list that is the full 11-field sequence with only an all-empty
suffix trimmed (never below one element), and that always contains at
least the 7 mandatory leading fields BCD, 002, 1, SCT, bic, name, iban. -/
theorem C7_epc_trailing_trim (p : UPNPayment) (h : p.purpose = []) :
    (∃ k, epcFullParts p none = build_epc_parts p none ++ List.replicate k []) ∧
    1 ≤ (build_epc_parts p none).length ∧
    7 ≤ (build_epc_parts p none).length ∧
    (build_epc_parts p none).take 7 =
      ["BCD".data, "002".data, "1".data, "SCT".data, [],
       (pyOr p.recipient_name []).take 70,
       (pyUpper (removeSpaces (pyOr p.iban []))).take 34] := by
  have hE : "EUR".data ++ format2 p.amount ≠ [] := by
    have hd : "EUR".data = ['E', 'U', 'R'] := rfl
    simp [hd]
  have hfull : epcFullParts p none =
      ["BCD".data, "002".data, "1".data, "SCT".data, [],
       (pyOr p.recipient_name []).take 70,
       (pyUpper (removeSpaces (pyOr p.iban []))).take 34,
       "EUR".data ++ format2 p.amount, [],
       (pyOr p.reference []).take 35, []] := by
    have hb2o : (pyOr p.purpose []).take 70 = [] := by rw [h]; rfl
    have hpc : (if p.purpose ≠ [] then (pyOr p.purpose []).take 4 else []) = [] := by
      rw [h]; simp
    have hps : pyStrip ([] : Str) = [] := rfl
    simp only [epcFullParts, hb2o, hpc, remit_simp, Option.getD, hps]
  by_cases hR : (pyOr p.reference []).take 35 = []
  · have h1 : epcFullParts p none =
        ["BCD".data, "002".data, "1".data, "SCT".data, [],
         (pyOr p.recipient_name []).take 70,
         (pyUpper (removeSpaces (pyOr p.iban []))).take 34,
         "EUR".data ++ format2 p.amount] ++ List.replicate 3 [] := by
      rw [hfull, hR]; rfl
    have h2 : build_epc_parts p none =
        ["BCD".data, "002".data, "1".data, "SCT".data, [],
         (pyOr p.recipient_name []).take 70,
         (pyUpper (removeSpaces (pyOr p.iban []))).take 34,
         "EUR".data ++ format2 p.amount] := by
      rw [build_epc_parts, h1, dte_append_replicate]
      rw [show (["BCD".data, "002".data, "1".data, "SCT".data, [],
         (pyOr p.recipient_name []).take 70,
         (pyUpper (removeSpaces (pyOr p.iban []))).take 34,
         "EUR".data ++ format2 p.amount] : List Str) =
        ["BCD".data, "002".data, "1".data, "SCT".data, [],
         (pyOr p.recipient_name []).take 70,
         (pyUpper (removeSpaces (pyOr p.iban []))).take 34] ++
          ["EUR".data ++ format2 p.amount] from rfl, dte_last_ne _ _ hE]
      rfl
    refine ⟨⟨3, by rw [h1, h2]⟩, ?_, ?_, ?_⟩
    · rw [h2]; simp
    · rw [h2]; simp
    · rw [h2]; rfl
  · have h1 : epcFullParts p none =
        (["BCD".data, "002".data, "1".data, "SCT".data, [],
          (pyOr p.recipient_name []).take 70,
          (pyUpper (removeSpaces (pyOr p.iban []))).take 34,
          "EUR".data ++ format2 p.amount, []] ++ [(pyOr p.reference []).take 35]) ++ [[]] := by
      rw [hfull]; rfl
    have h2 : build_epc_parts p none =
        ["BCD".data, "002".data, "1".data, "SCT".data, [],
         (pyOr p.recipient_name []).take 70,
         (pyUpper (removeSpaces (pyOr p.iban []))).take 34,
         "EUR".data ++ format2 p.amount, [],
         (pyOr p.reference []).take 35] := by
      rw [build_epc_parts, h1, dte_append_nil, dte_last_ne _ _ hR]
      rfl
    refine ⟨⟨1, by rw [h1, h2]; rfl⟩, ?_, ?_, ?_⟩
    · rw [h2]; simp
    · rw [h2]; simp
    · rw [h2]; rfl

/-- A concrete record with empty purpose, for the C7 witness. -/
def recC7 : UPNPayment :=
  { recipient_name := "X".data
    recipient_address := []
    iban := "SI56110022334455667".data
    amount := (2874 : ℚ) / 100
    reference := "REF".data
    purpose := []
    payer_reference := [] }

/-- Witness for C7 at a concrete record with empty purpose. -/
theorem C7_witness :
    (∃ k, epcFullParts recC7 none = build_epc_parts recC7 none ++ List.replicate k []) ∧
    1 ≤ (build_epc_parts recC7 none).length ∧
    7 ≤ (build_epc_parts recC7 none).length ∧
    (build_epc_parts recC7 none).take 7 =
      ["BCD".data, "002".data, "1".data, "SCT".data, [],
       (pyOr recC7.recipient_name []).take 70,
       (pyUpper (removeSpaces (pyOr recC7.iban []))).take 34] :=
  C7_epc_trailing_trim recC7 rfl

/-! ## C6: batch parsing and dedup -/

/-- Modelled from the spec: deduplicate by the `(iban, reference, amount)`
key, keeping only the first record for each key and preserving first-seen
order. -/
def specDedupFirstByKey : List UPNPayment → List UPNPayment
  | [] => []
  | p :: rest => p :: specDedupFirstByKey (rest.filter (fun q => pkey q ≠ pkey p))
termination_by l => l.length
decreasing_by
  exact Nat.lt_succ_of_le (List.length_filter_le _ _)

lemma parseAllGo_eq (ss : List Str) : ∀ seen : List (Str × Str × ℚ),
    parseAllGo ss seen =
      specDedupFirstByKey
        ((ss.filterMap parse_unp_qr_content).filter (fun p => pkey p ∉ seen)) := by
  induction ss with
  | nil => intro seen; simp [parseAllGo, specDedupFirstByKey]
  | cons s rest ih =>
    intro seen
    cases hp : parse_unp_qr_content s with
    | none => simp only [parseAllGo, hp, List.filterMap_cons, ih]
    | some p =>
      by_cases hin : pkey p ∈ seen
      · simp only [parseAllGo, hp, if_pos hin, List.filterMap_cons, ih]
        rw [List.filter_cons_of_neg (by simp [hin])]
      · simp only [parseAllGo, hp, if_neg hin, List.filterMap_cons]
        rw [List.filter_cons_of_pos (by simp [hin]), specDedupFirstByKey,
          ih (pkey p :: seen), List.filter_filter]
        refine congrArg (fun l => p :: specDedupFirstByKey l) ?_
        apply List.filter_congr
        intro q _
        by_cases h1 : pkey q = pkey p <;> by_cases h2 : pkey q ∈ seen <;>
          simp [h1, h2, List.mem_cons]

/-- The spec's literal payload (see C3) and a sibling differing only in
recipient name (line 16), sharing the `(iban, reference, amount)` key. -/
def upnLitA : Str := "UPNQR\n\n\n\n\n\n\n\n00000002874\n\n\nOTHR\nPrispevek za DO\n\nSI56110022334455667\nSI19 12345-67890\nJANEZ NOVAK\nDUNAJSKA 1\nLJUBLJANA\n".data

def upnLitB : Str := "UPNQR\n\n\n\n\n\n\n\n00000002874\n\n\nOTHR\nPrispevek za DO\n\nSI56110022334455667\nSI19 12345-67890\nMARIJA KRANJC\nDUNAJSKA 1\nLJUBLJANA\n".data

/-- C6: the batch parser parses each string independently, silently skips
invalid ones, and deduplicates the survivors by `(iban, reference,
amount)`, keeping the first record for each key in first-seen order; in
particular two payloads differing only in recipient name but sharing the
key yield exactly the first record. -/
theorem C6_batch_dedup :
    (∀ ss : List Str, parse_all_unp_qr_contents ss =
      specDedupFirstByKey (ss.filterMap parse_unp_qr_content)) ∧
    parse_all_unp_qr_contents [upnLitA, upnLitB] =
      [{ recipient_name := "JANEZ NOVAK".data
         recipient_address := "DUNAJSKA 1 LJUBLJANA".data
         iban := "SI56110022334455667".data
         amount := (2874 : ℚ) / 100
         reference := "SI19 12345-67890".data
         purpose := "Prispevek za DO".data
         payer_reference := [] }] := by
  constructor
  · intro ss
    rw [parse_all_unp_qr_contents, parseAllGo_eq]
    congr 1
    rw [List.filter_eq_self]
    intro a _
    simp
  · with_unfolding_all decide

/-! ## `pdf_qr_extract.py`: byte-buffer → text normalization (C8)

Byte buffers are `List Nat` with values 0–255.  The decoders model
Python's `bytes.decode(enc)`: strict UTF-8, the single-byte charsets
ISO-8859-2 and Windows-1250 (tables per the Unicode mapping files; bytes
that coincide with Latin-1 fall through to identity), and Latin-1, which
maps every byte to the code point of the same value and therefore never
fails. -/

def utf8Cont (b : Nat) : Bool := 0x80 ≤ b && b ≤ 0xBF

/-- Strict UTF-8 decoding (rejects overlong forms, surrogates and
code points beyond U+10FFFF, as Python's strict codec does). -/
def utf8Decode : List Nat → Option Str
  | [] => some []
  | b :: rest =>
    if b ≤ 0x7F then
      (utf8Decode rest).map (fun s => Char.ofNat b :: s)
    else if 0xC2 ≤ b ∧ b ≤ 0xDF then
      match rest with
      | b2 :: r =>
        if utf8Cont b2 then
          (utf8Decode r).map (fun s => Char.ofNat ((b - 0xC0) * 0x40 + (b2 - 0x80)) :: s)
        else none
      | [] => none
    else if 0xE0 ≤ b ∧ b ≤ 0xEF then
      match rest with
      | b2 :: b3 :: r =>
        if utf8Cont b2 ∧ utf8Cont b3 ∧ (b ≠ 0xE0 ∨ 0xA0 ≤ b2) ∧ (b ≠ 0xED ∨ b2 ≤ 0x9F) then
          (utf8Decode r).map
            (fun s => Char.ofNat ((b - 0xE0) * 0x1000 + (b2 - 0x80) * 0x40 + (b3 - 0x80)) :: s)
        else none
      | _ => none
    else if 0xF0 ≤ b ∧ b ≤ 0xF4 then
      match rest with
      | b2 :: b3 :: b4 :: r =>
        if utf8Cont b2 ∧ utf8Cont b3 ∧ utf8Cont b4 ∧
            (b ≠ 0xF0 ∨ 0x90 ≤ b2) ∧ (b ≠ 0xF4 ∨ b2 ≤ 0x8F) then
          (utf8Decode r).map
            (fun s => Char.ofNat ((b - 0xF0) * 0x40000 + (b2 - 0x80) * 0x1000 +
              (b3 - 0x80) * 0x40 + (b4 - 0x80)) :: s)
        else none
      | _ => none
    else none

/-- ISO-8859-2 byte → code point (all 256 bytes are defined; entries not
listed, including all of 0x00–0xA0, coincide with Latin-1 identity). -/
def iso88592Table (b : Nat) : Nat :=
  match b with
  | 0xA1 => 0x0104 | 0xA2 => 0x02D8 | 0xA3 => 0x0141
  | 0xA5 => 0x013D | 0xA6 => 0x015A
  | 0xA9 => 0x0160 | 0xAA => 0x015E | 0xAB => 0x0164 | 0xAC => 0x0179
  | 0xAE => 0x017D | 0xAF => 0x017B
  | 0xB1 => 0x0105 | 0xB2 => 0x02DB | 0xB3 => 0x0142
  | 0xB5 => 0x013E | 0xB6 => 0x015B | 0xB7 => 0x02C7
  | 0xB9 => 0x0161 | 0xBA => 0x015F | 0xBB => 0x0165
  | 0xBC => 0x017A | 0xBD => 0x02DD | 0xBE => 0x017E | 0xBF => 0x017C
  | 0xC0 => 0x0154 | 0xC3 => 0x0102 | 0xC5 => 0x0139 | 0xC6 => 0x0106
  | 0xC8 => 0x010C | 0xCA => 0x0118 | 0xCC => 0x011A | 0xCF => 0x010E
  | 0xD0 => 0x0110 | 0xD1 => 0x0143 | 0xD2 => 0x0147 | 0xD5 => 0x0150
  | 0xD8 => 0x0158 | 0xD9 => 0x016E | 0xDB => 0x0170 | 0xDE => 0x0162
  | 0xE0 => 0x0155 | 0xE3 => 0x0103 | 0xE5 => 0x013A | 0xE6 => 0x0107
  | 0xE8 => 0x010D | 0xEA => 0x0119 | 0xEC => 0x011B | 0xEF => 0x010F
  | 0xF0 => 0x0111 | 0xF1 => 0x0144 | 0xF2 => 0x0148 | 0xF5 => 0x0151
  | 0xF8 => 0x0159 | 0xF9 => 0x016F | 0xFB => 0x0171 | 0xFE => 0x0163
  | 0xFF => 0x02D9
  | _ => b

/-- ISO-8859-2 decoding: total, every byte is defined. -/
def iso88592Decode (bs : List Nat) : Option Str :=
  some (bs.map (fun b => Char.ofNat (iso88592Table b)))

/-- Windows-1250 byte → code point for the defined bytes (entries not
listed coincide with Latin-1 identity). -/
def cp1250Table (b : Nat) : Nat :=
  match b with
  | 0x80 => 0x20AC | 0x82 => 0x201A | 0x84 => 0x201E | 0x85 => 0x2026
  | 0x86 => 0x2020 | 0x87 => 0x2021 | 0x89 => 0x2030 | 0x8A => 0x0160
  | 0x8B => 0x2039 | 0x8C => 0x015A | 0x8D => 0x0164 | 0x8E => 0x017D
  | 0x8F => 0x0179 | 0x91 => 0x2018 | 0x92 => 0x2019 | 0x93 => 0x201C
  | 0x94 => 0x201D | 0x95 => 0x2022 | 0x96 => 0x2013 | 0x97 => 0x2014
  | 0x99 => 0x2122 | 0x9A => 0x0161 | 0x9B => 0x203A | 0x9C => 0x015B
  | 0x9D => 0x0165 | 0x9E => 0x017E | 0x9F => 0x017A
  | 0xA1 => 0x02C7 | 0xA2 => 0x02D8 | 0xA3 => 0x0141 | 0xA5 => 0x0104
  | 0xAA => 0x015E | 0xAF => 0x017B | 0xB2 => 0x02DB | 0xB3 => 0x0142
  | 0xB9 => 0x0105 | 0xBA => 0x015F | 0xBC => 0x013D | 0xBD => 0x02DD
  | 0xBE => 0x013E | 0xBF => 0x017C
  | 0xC0 => 0x0154 | 0xC3 => 0x0102 | 0xC5 => 0x0139 | 0xC6 => 0x0106
  | 0xC8 => 0x010C | 0xCA => 0x0118 | 0xCC => 0x011A | 0xCF => 0x010E
  | 0xD0 => 0x0110 | 0xD1 => 0x0143 | 0xD2 => 0x0147 | 0xD5 => 0x0150
  | 0xD8 => 0x0158 | 0xD9 => 0x016E | 0xDB => 0x0170 | 0xDE => 0x0162
  | 0xE0 => 0x0155 | 0xE3 => 0x0103 | 0xE5 => 0x013A | 0xE6 => 0x0107
  | 0xE8 => 0x010D | 0xEA => 0x0119 | 0xEC => 0x011B | 0xEF => 0x010F
  | 0xF0 => 0x0111 | 0xF1 => 0x0144 | 0xF2 => 0x0148 | 0xF5 => 0x0151
  | 0xF8 => 0x0159 | 0xF9 => 0x016F | 0xFB => 0x0171 | 0xFE => 0x0163
  | 0xFF => 0x02D9
  | _ => b

/-- The five bytes Windows-1250 leaves undefined; decoding fails on them. -/
def cp1250Undef (b : Nat) : Bool :=
  b = 0x81 || b = 0x83 || b = 0x88 || b = 0x90 || b = 0x98

def cp1250Decode (bs : List Nat) : Option Str :=
  if bs.any cp1250Undef then none
  else some (bs.map (fun b => Char.ofNat (cp1250Table b)))

/-- Latin-1 decoding: every byte maps to the code point of its value;
never fails (the guaranteed-success terminal fallback). -/
def latin1Decode (bs : List Nat) : Option Str :=
  some (bs.map Char.ofNat)

/-- The expression `raw.decode("utf-8", errors="replace")` — the line after the loop in
`_normalize_qr_content_to_str`.  It is unreachable (Latin-1, and in fact
already ISO-8859-2, always succeeds), which `C8_normalize_priority`
makes precise; the replacement segmentation is therefore modelled
coarsely: ASCII bytes stand, every other byte becomes U+FFFD. -/
def utf8ReplaceDecode : List Nat → Str
  | [] => []
  | b :: rest =>
    if b ≤ 0x7F then Char.ofNat b :: utf8ReplaceDecode rest
    else Char.ofNat 0xFFFD :: utf8ReplaceDecode rest

/-- The bytes branch of `_normalize_qr_content_to_str`
(`pdf_qr_extract.py` lines 98–104): try UTF-8, ISO-8859-2, Windows-1250,
Latin-1 in this order, returning the first successful decoding; fall back
to replacement decoding if all fail. -/
def normalizeQrBytes (bs : List Nat) : Str :=
  match utf8Decode bs with
  | some s => s
  | none =>
    match iso88592Decode bs with
    | some s => s
    | none =>
      match cp1250Decode bs with
      | some s => s
      | none =>
        match latin1Decode bs with
        | some s => s
        | none => utf8ReplaceDecode bs

/-- C8: the bytes branch of text normalization attempts decodings in the
fixed priority order UTF-8, ISO-8859-2, Windows-1250, Latin-1 (which
always succeeds), returning the first success; in particular the
ISO-8859-2 encoding of "č" (the single byte 0xE8), on which UTF-8 fails,
normalizes to the Unicode character "č", not a replacement character. -/
theorem C8_normalize_priority :
    (∀ bs s, utf8Decode bs = some s → normalizeQrBytes bs = s) ∧
    (∀ bs s, utf8Decode bs = none → iso88592Decode bs = some s → normalizeQrBytes bs = s) ∧
    (∀ bs s, utf8Decode bs = none → iso88592Decode bs = none → cp1250Decode bs = some s →
      normalizeQrBytes bs = s) ∧
    (∀ bs s, utf8Decode bs = none → iso88592Decode bs = none → cp1250Decode bs = none →
      latin1Decode bs = some s → normalizeQrBytes bs = s) ∧
    (∀ bs, latin1Decode bs ≠ none) ∧
    utf8Decode [0xE8] = none ∧
    normalizeQrBytes [0xE8] = ['č'] := by
  refine ⟨?_, ?_, ?_, ?_, ?_, ?_, ?_⟩
  · intro bs s h; simp only [normalizeQrBytes, h]
  · intro bs s h1 h2; simp only [normalizeQrBytes, h1, h2]
  · intro bs s h1 h2 h3; simp only [normalizeQrBytes, h1, h2, h3]
  · intro bs s h1 h2 h3 h4; simp only [normalizeQrBytes, h1, h2, h3, h4]
  · intro bs; simp [latin1Decode]
  · decide
  · decide

/-- Witness for C8: valid UTF-8 bytes (the UTF-8 encoding of "č") decode
at the first stage of the priority chain. -/
theorem C8_witness : normalizeQrBytes [0xC4, 0x8D] = ['č'] :=
  C8_normalize_priority.1 [0xC4, 0x8D] ['č'] (by decide)

/-! ## `upn_parser.py`: the three fallback text-layout parsers (C9)

All three parsers share the preprocessing
`[ln.strip() for ln in text.splitlines() if ln.strip()]` and a family of
anchored regexes, modelled here as deterministic matchers (each regex
alternates disjoint character classes, so no backtracking ambiguity
exists).  The `while`/`for` loops with `break`/`continue` are rendered as
fuel-indexed recursions whose fuel equals the iteration count of the
source loop; field state mutated inside a loop becomes an explicit state
record threaded through the recursion. -/

/-- Python line terminators recognised by `str.splitlines` (the ASCII
subset that can occur in this pipeline). -/
def lineBreakChar (c : Char) : Bool :=
  c = '\n' || c = '\r' || c = '\x0b' || c = '\x0c'

/-- Worker of `str.splitlines`: `cur` is the current line, reversed. -/
def pySLGo (cur : Str) : Str → List Str
  | [] => [cur.reverse]
  | '\r' :: '\n' :: t => cur.reverse :: (match t with | [] => [] | _ => pySLGo [] t)
  | c :: t =>
    if lineBreakChar c then cur.reverse :: (match t with | [] => [] | _ => pySLGo [] t)
    else pySLGo (c :: cur) t

/-- Python `s.splitlines()`: no trailing empty piece after a final
terminator, and `\r\n` counts as a single terminator. -/
def pySplitlines : Str → List Str
  | [] => []
  | s => pySLGo [] s

/-- The comprehension `[ln.strip() for ln in text.splitlines() if ln.strip()]`. -/
def upnTextLines (text : Str) : List Str :=
  ((pySplitlines text).map pyStrip).filter (fun l => l ≠ [])

/-- Regex `^SI\d{2}\s*[\d\s]+$` — `iban_re` of `extract_upn_payments`: "SI",
two digits, then at least one digit-or-whitespace character (`\s*` is
absorbed by `[\d\s]+`, the classes being disjoint from nothing here). -/
def matchIbanV1 : Str → Bool
  | 'S' :: 'I' :: a :: b :: rest =>
    a.isDigit && b.isDigit && !rest.isEmpty &&
      rest.all (fun c => c.isDigit || pyIsSpace c)
  | _ => false

/-- Regex `^SI56\s*[\d\s]+$` — `iban_re` of v2 and of the text fallback. -/
def matchIbanV2 (s : Str) : Bool :=
  strStarts "SI56".data s && !(s.drop 4).isEmpty &&
    (s.drop 4).all (fun c => c.isDigit || pyIsSpace c)

/-- Regex `^SI19\s+[\d\-]+$` — `si19_re` of `extract_upn_payments` (mandatory
whitespace after the prefix). -/
def matchSi19V1 : Str → Bool
  | 'S' :: 'I' :: '1' :: '9' :: rest =>
    !(rest.takeWhile pyIsSpace).isEmpty && !(rest.dropWhile pyIsSpace).isEmpty &&
      (rest.dropWhile pyIsSpace).all (fun c => c.isDigit || c = '-')
  | _ => false

/-- Regex `^SI19\s*[\d\-]+$` — `si19_re` of v2 and of the text fallback. -/
def matchSi19V2 (s : Str) : Bool :=
  strStarts "SI19".data s && !((s.drop 4).dropWhile pyIsSpace).isEmpty &&
    ((s.drop 4).dropWhile pyIsSpace).all (fun c => c.isDigit || c = '-')

/-- Regex `^\*+\s*[\d]+[,\.]\d{2}\s*$` — the amount-line pattern: leading
asterisk padding, optional whitespace, an integer part, a comma or
period, exactly two decimals, optional trailing whitespace. -/
def matchAmountRe (s : Str) : Bool :=
  match s with
  | '*' :: _ =>
    let u := (s.dropWhile (fun c => c = '*')).dropWhile pyIsSpace
    let d := u.takeWhile Char.isDigit
    !d.isEmpty &&
      (match u.drop d.length with
       | sep :: a :: b :: rest =>
         (sep = ',' || sep = '.') && a.isDigit && b.isDigit && rest.all pyIsSpace
       | _ => false)
  | _ => false

/-- Regex `^RF\d{2}\s*$` — the payer-reference pattern. -/
def matchRF : Str → Bool
  | 'R' :: 'F' :: a :: b :: rest => a.isDigit && b.isDigit && rest.all pyIsSpace
  | _ => false

/-- Regex `^\d{10}\s*$` — the bare-account-number noise pattern of the text
fallback. -/
def matchTenDigits (s : Str) : Bool :=
  (s.take 10).length = 10 && (s.take 10).all Char.isDigit && (s.drop 10).all pyIsSpace

/-- An optional leading sign: returns (is-negative, remainder). -/
def parseSign : Str → Bool × Str
  | '+' :: t => (false, t)
  | '-' :: t => (true, t)
  | s => (false, s)

/-- Exponent part of a Python float literal (after the `e`/`E`). -/
def expPart (mant : ℚ) (t : Str) : Option ℚ :=
  let st := parseSign t
  let ed := st.2.takeWhile Char.isDigit
  if ed.isEmpty ∨ ¬ (st.2.drop ed.length).isEmpty then none
  else some (mant * (10 : ℚ) ^ (if st.1 then -(natOfDigits ed : ℤ) else (natOfDigits ed : ℤ)))

/-- Python `float(s)` on finite decimal/exponent literals: surrounding
whitespace, optional sign, digits with an optional fractional part
(at least one digit overall), optional exponent.  `inf`/`nan` and
underscore separators are not modelled: every call site in this
repository first matches `^\*+\s*\d+[,.]\d{2}\s*$`, so no such string
can reach `float`. -/
def pyFloatParse (s0 : Str) : Option ℚ :=
  let s := pyStrip s0
  let sg := parseSign s
  let ip := sg.2.takeWhile Char.isDigit
  let r1 := sg.2.drop ip.length
  let fpr : Str × Str :=
    match r1 with
    | '.' :: t => (t.takeWhile Char.isDigit, t.drop (t.takeWhile Char.isDigit).length)
    | _ => ([], r1)
  if ip.isEmpty ∧ fpr.1.isEmpty then none
  else
    let mant : ℚ := (natOfDigits ip : ℚ) + (natOfDigits fpr.1 : ℚ) / ((10 : ℚ) ^ fpr.1.length)
    let res : Option ℚ :=
      match fpr.2 with
      | [] => some mant
      | 'e' :: t => expPart mant t
      | 'E' :: t => expPart mant t
      | _ => none
    res.map (fun q => if sg.1 then -q else q)

/-- The function `_parse_amount`: strip, drop the leading `*` padding
(`re.sub(r"^\*+", "", s)`), turn the comma separator into a period,
parse as a decimal value. -/
def parse_amount (s : Str) : Option ℚ :=
  let s1 := pyStrip s
  let s2 := s1.dropWhile (fun c => c = '*')
  let s3 := s2.map (fun c => if c = ',' then '.' else c)
  pyFloatParse s3

/-- Mutable state of the inner block scan of `extract_upn_payments`
(`upn_parser.py` lines 63–73; `address_candidates` is declared in the
source but never written or read afterwards and is omitted). -/
structure ScanV1 where
  recipient_name : Str
  recipient_address : Str
  purpose : Str
  ref_si19 : Str
  amount_val : Option ℚ
  payer_ref : Str
  name_candidates : List Str
deriving Repr

def initScanV1 : ScanV1 := ⟨[], [], [], [], none, [], []⟩

/-- Inner `while j < len(lines)` loop of `extract_upn_payments`
(`upn_parser.py` lines 75–118); the fuel is the remaining iteration
count, a `break` returns the state directly. -/
def v1Inner (lines : List Str) : Nat → Nat → ScanV1 → ScanV1
  | 0, _, st => st
  | fuel + 1, j, st =>
    if j < lines.length then
      if matchIbanV1 (removeWhitespace (lines.getD j [])) = true ∧
          isSubstr "SI56".data (lines.getD j []) = true then
        let st1 :=
          if j + 1 < lines.length ∧ matchSi19V1 (removeSpaces (lines.getD (j + 1) [])) = true then
            { st with ref_si19 := removeWhitespace (lines.getD (j + 1) []) }
          else st
        let st2 :=
          if j + 2 < lines.length ∧ matchAmountRe (lines.getD (j + 2) []) = true then
            { st1 with amount_val := parse_amount (lines.getD (j + 2) []) }
          else st1
        if st2.amount_val ≠ none ∧ st2.ref_si19 ≠ [] then
          let st3 :=
            if st2.name_candidates ≠ [] then
              { st2 with recipient_name := st2.name_candidates.getD 0 [] }
            else st2
          if st3.name_candidates.length > 1 then
            { st3 with recipient_address := joinSpace (st3.name_candidates.drop 1) }
          else st3
        else v1Inner lines fuel (j + 1) st2
      else if matchSi19V1 (removeWhitespace (lines.getD j [])) = true then
        v1Inner lines fuel (j + 1) { st with ref_si19 := removeWhitespace (lines.getD j []) }
      else if matchAmountRe (lines.getD j []) = true then
        v1Inner lines fuel (j + 1) { st with amount_val := parse_amount (lines.getD j []) }
      else if matchRF (lines.getD j []) = true then
        v1Inner lines fuel (j + 1) { st with payer_ref := pyStrip (lines.getD j []) }
      else
        v1Inner lines fuel (j + 1)
          (if st.ref_si19 = [] ∧ ¬ matchAmountRe (lines.getD j []) = true then
            if st.recipient_name = [] ∧ collapseWS (lines.getD j []) ≠ [] ∧
                (collapseWS (lines.getD j [])).length > 2 then
              { st with name_candidates := st.name_candidates ++ [collapseWS (lines.getD j [])] }
            else if st.recipient_name ≠ [] ∧ st.purpose = [] ∧
                isSubstr "Prispevek".data (lines.getD j []) = true then
              { st with purpose := collapseWS (lines.getD j []) }
            else if st.recipient_name ≠ [] ∧ st.purpose ≠ [] ∧
                isSubstr "Prispevek".data (lines.getD j []) = true then
              { st with purpose := collapseWS (lines.getD j []) }
            else st
          else st)
    else st

/-- Record construction of `extract_upn_payments` (`upn_parser.py`
lines 120–137): promote the first name candidate, join the rest into the
address, default the purpose. -/
def v1Record (iban : Str) (a : ℚ) (st : ScanV1) : UPNPayment :=
  let st1 :=
    if st.recipient_name = [] ∧ st.name_candidates ≠ [] then
      { st with recipient_name := st.name_candidates.getD 0 [] }
    else st
  let st2 :=
    if st1.name_candidates.length > 1 then
      { st1 with recipient_address := joinSpace (st1.name_candidates.drop 1) }
    else st1
  { recipient_name := pyOr st2.recipient_name "Recipient".data
    recipient_address := st2.recipient_address
    iban := iban
    amount := a
    reference := st2.ref_si19
    purpose := if st2.purpose = [] then "UPN payment".data else st2.purpose
    payer_reference := st2.payer_ref }

/-- The append step of `extract_upn_payments`: the final guard
`amount_val is not None and amount_val > 0 and ref_si19 and iban`. -/
def v1Finish (iban : Str) (st : ScanV1) : List UPNPayment :=
  match st.amount_val with
  | none => []
  | some a =>
    if 0 < a ∧ st.ref_si19 ≠ [] ∧ iban ≠ [] then [v1Record iban a st] else []

/-- Outer `while i < len(lines)` loop of `extract_upn_payments`. -/
def v1Outer (lines : List Str) : Nat → Nat → List UPNPayment
  | 0, _ => []
  | fuel + 1, i =>
    if i < lines.length then
      if ¬ matchIbanV1 (removeWhitespace (lines.getD i [])) = true ∨
          ¬ isSubstr "SI56".data (lines.getD i []) = true then
        v1Outer lines fuel (i + 1)
      else if ¬ strStarts "SI56".data (normalize_iban (lines.getD i [])) = true ∨
          (normalize_iban (lines.getD i [])).length ≠ 19 then
        v1Outer lines fuel (i + 1)
      else
        v1Finish (normalize_iban (lines.getD i []))
            (v1Inner lines (lines.length - (i + 1)) (i + 1) initScanV1) ++
          v1Outer lines fuel (i + 1)
    else []

/-- The function `extract_upn_payments`. -/
def extract_upn_payments (text : Str) : List UPNPayment :=
  v1Outer (upnTextLines text) (upnTextLines text).length 0

/-- Mutable state of the forward name scan of `extract_upn_payments_v2`
(`upn_parser.py` lines 192–217). -/
structure ScanV2 where
  name_lines : List Str
  purpose : Str
  payer_ref : Str
deriving Repr

/-- Backward IBAN lookup of v2: `for k in range(i-1, max(-1, i-25), -1)`
(`upn_parser.py` lines 180–185); the fuel is `min i 24`, the exact
iteration count of the source range. -/
def v2FindIban (lines : List Str) : Nat → Nat → Str
  | 0, _ => []
  | fuel + 1, k =>
    if matchIbanV2 (removeWhitespace (lines.getD k [])) = true ∧
        isSubstr "SI56".data (lines.getD k []) = true ∧
        (removeWhitespace (lines.getD k [])).length = 19 then
      normalize_iban (lines.getD k [])
    else v2FindIban lines fuel (k - 1)

/-- Forward name/purpose scan of v2 (`upn_parser.py` lines 192–217),
starting at `j = i + 3`; a `break` returns the state directly. -/
def v2NameScan (lines : List Str) (ref_si19 : Str) : Nat → Nat → ScanV2 → ScanV2
  | 0, _, st => st
  | fuel + 1, j, st =>
    if j < lines.length then
      if matchAmountRe (lines.getD j []) = true ∨
          matchSi19V2 (removeWhitespace (lines.getD j [])) = true then
        v2NameScan lines ref_si19 fuel (j + 1) st
      else if matchRF (lines.getD j []) = true then
        v2NameScan lines ref_si19 fuel (j + 1) { st with payer_ref := pyStrip (lines.getD j []) }
      else if isSubstr "Prispevek".data (lines.getD j []) = true ∧ st.name_lines = [] then
        { st with purpose := collapseWS (lines.getD j []) }
      else if isSubstr "Prispevek".data (lines.getD j []) = true then
        { st with purpose := collapseWS (lines.getD j []) }
      else
        let st' :=
          if lines.getD j [] ≠ [] ∧ removeWhitespace (lines.getD j []) ≠ ref_si19 ∧
              ¬ isSubstr "SI56".data (lines.getD j []) = true then
            { st with name_lines := st.name_lines ++ [collapseWS (lines.getD j [])] }
          else st
        if st'.purpose ≠ [] ∧ st'.name_lines.length ≥ 1 then st'
        else v2NameScan lines ref_si19 fuel (j + 1) st'
    else st

/-- Record construction of v2 (`upn_parser.py` lines 218–238). -/
def v2Record (iban ref : Str) (a : ℚ) (st : ScanV2) : UPNPayment :=
  { recipient_name :=
      pyOr (if st.name_lines ≠ [] then st.name_lines.getD 0 [] else []) "Recipient".data
    recipient_address := if st.name_lines.length > 1 then joinSpace (st.name_lines.drop 1) else []
    iban := iban
    amount := a
    reference := ref
    purpose := if st.purpose = [] then "UPN payment".data else st.purpose
    payer_reference := st.payer_ref }

/-- Outer loop of `extract_upn_payments_v2` with its `(iban, ref,
amount)` dedup set. -/
def v2Outer (lines : List Str) : Nat → Nat → List (Str × Str × ℚ) → List UPNPayment
  | 0, _, _ => []
  | fuel + 1, i, seen =>
    if i < lines.length then
      if ¬ matchSi19V2 (removeWhitespace (lines.getD i [])) = true then
        v2Outer lines fuel (i + 1) seen
      else if ¬ (i + 1 < lines.length ∧ matchAmountRe (lines.getD (i + 1) []) = true) then
        v2Outer lines fuel (i + 1) seen
      else
        match parse_amount (lines.getD (i + 1) []) with
        | none => v2Outer lines fuel (i + 1) seen
        | some a =>
          if a ≤ 0 then v2Outer lines fuel (i + 1) seen
          else if v2FindIban lines (min i 24) (i - 1) = [] then
            v2Outer lines fuel (i + 1) seen
          else if (v2FindIban lines (min i 24) (i - 1),
              removeWhitespace (lines.getD i []), a) ∈ seen then
            v2Outer lines fuel (i + 1) seen
          else
            v2Record (v2FindIban lines (min i 24) (i - 1))
                (removeWhitespace (lines.getD i [])) a
                (v2NameScan lines (removeWhitespace (lines.getD i []))
                  lines.length (i + 3) ⟨[], [], []⟩) ::
              v2Outer lines fuel (i + 1)
                ((v2FindIban lines (min i 24) (i - 1),
                  removeWhitespace (lines.getD i []), a) :: seen)
    else []

/-- The function `extract_upn_payments_v2`. -/
def extract_upn_payments_v2 (text : Str) : List UPNPayment :=
  v2Outer (upnTextLines text) (upnTextLines text).length 0 []

/-- The running `iban` assignment of the text fallback's lookahead
(`upn_parser.py` lines 276–277): overwrite the accumulator when line `k`
is IBAN-shaped. -/
def v3IbanUpd (lines : List Str) (k : Nat) (iban : Str) : Str :=
  if matchIbanV2 (removeWhitespace (lines.getD k [])) = true ∧
      isSubstr "SI56".data (lines.getD k []) = true ∧
      (removeWhitespace (lines.getD k [])).length = 19 then
    normalize_iban (lines.getD k [])
  else iban

/-- IBAN/SI19 lookahead of the text fallback: `for k in range(j,
min(len(lines), j+18))` (`upn_parser.py` lines 273–280); the running
`iban` assignment is the accumulator (updated before the `si19_re` test,
as in the source), a match of `si19_re` breaks with the pair. -/
def v3FindIbanRef (lines : List Str) : Nat → Nat → Str → Str × Str
  | 0, _, iban => (iban, [])
  | fuel + 1, k, iban =>
    if matchSi19V2 (removeWhitespace (lines.getD k [])) = true then
      (v3IbanUpd lines k iban, removeWhitespace (lines.getD k []))
    else v3FindIbanRef lines fuel (k + 1) (v3IbanUpd lines k iban)

/-- Name/purpose scan of the text fallback (`upn_parser.py` lines
285–296): accumulates name lines, a purpose-keyword line breaks. -/
def v3NameScan (lines : List Str) : Nat → Nat → List Str → List Str × Str
  | 0, _, nl => (nl, [])
  | fuel + 1, k, nl =>
    if isSubstr "Prispevek".data (lines.getD k []) = true then
      (nl, collapseWS (lines.getD k []))
    else if matchIbanV2 (removeWhitespace (lines.getD k [])) = true ∨
        matchSi19V2 (removeWhitespace (lines.getD k [])) = true then
      v3NameScan lines fuel (k + 1) nl
    else if lines.getD k [] ≠ [] ∧ ¬ isSubstr "LBRI".data (lines.getD k []) = true ∧
        ¬ isSubstr "LT10".data (lines.getD k []) = true ∧
        ¬ matchTenDigits (lines.getD k []) = true then
      v3NameScan lines fuel (k + 1) (nl ++ [collapseWS (lines.getD k [])])
    else v3NameScan lines fuel (k + 1) nl

/-- Index `j` of the text fallback: skip a possible second `***` line
(`upn_parser.py` lines 267–269). -/
def v3J (lines : List Str) (i : Nat) : Nat :=
  if i + 1 < lines.length ∧ matchAmountRe (lines.getD (i + 1) []) = true then i + 2 else i + 1

def v3Pr (lines : List Str) (i : Nat) : Str × Str :=
  v3FindIbanRef lines (min (lines.length - v3J lines i) 18) (v3J lines i) []

def v3Ns (lines : List Str) (i : Nat) : List Str × Str :=
  v3NameScan lines (min (lines.length - (v3J lines i + 1)) 24) (v3J lines i + 1) []

/-- Record construction of the text fallback (`upn_parser.py` lines
297–315). -/
def v3Record (iban ref : Str) (a : ℚ) (ns : List Str × Str) : UPNPayment :=
  { recipient_name := if ns.1 ≠ [] then ns.1.getD 0 [] else "Recipient".data
    recipient_address := if ns.1.length > 1 then joinSpace (ns.1.drop 1) else []
    iban := iban
    amount := a
    reference := ref
    purpose := if ns.2 = [] then "UPN payment".data else ns.2
    payer_reference := [] }

/-- Outer loop of `extract_upn_payments_from_text_fallback`. -/
def v3Outer (lines : List Str) : Nat → Nat → List (Str × Str × ℚ) → List UPNPayment
  | 0, _, _ => []
  | fuel + 1, i, seen =>
    if i < lines.length then
      if ¬ matchAmountRe (lines.getD i []) = true then v3Outer lines fuel (i + 1) seen
      else
        match parse_amount (lines.getD i []) with
        | none => v3Outer lines fuel (i + 1) seen
        | some a =>
          if a ≤ 0 then v3Outer lines fuel (i + 1) seen
          else if (v3Pr lines i).1 = [] ∨ (v3Pr lines i).2 = [] then
            v3Outer lines fuel (i + 1) seen
          else if ((v3Pr lines i).1, (v3Pr lines i).2, a) ∈ seen then
            v3Outer lines fuel (i + 1) seen
          else
            v3Record (v3Pr lines i).1 (v3Pr lines i).2 a (v3Ns lines i) ::
              v3Outer lines fuel (i + 1) (((v3Pr lines i).1, (v3Pr lines i).2, a) :: seen)
    else []

/-- The function `extract_upn_payments_from_text_fallback`. -/
def extract_upn_payments_from_text_fallback (text : Str) : List UPNPayment :=
  v3Outer (upnTextLines text) (upnTextLines text).length 0 []

/-! ## C9: the fallback-parser record invariant -/

/-- The IBAN invariant of the text-fallback parsers: literal prefix
"SI56", exactly 19 characters, no whitespace. -/
def IbanOk (s : Str) : Prop :=
  strStarts "SI56".data s = true ∧ s.length = 19 ∧ ∀ c ∈ s, pyIsSpace c = false

lemma toUpper_not_space {c : Char} (h : pyIsSpace c = false) :
    pyIsSpace c.toUpper = false := by
  simp only [Char.toUpper]
  split
  · rename_i hc
    obtain ⟨h1, h2⟩ := hc
    generalize Char.toNat c = n at h1 h2
    interval_cases n <;> decide
  · exact h

lemma normalize_iban_no_space (s : Str) : ∀ c ∈ normalize_iban s, pyIsSpace c = false := by
  intro c hc
  rw [normalize_iban, pyUpper] at hc
  obtain ⟨d, hd, rfl⟩ := List.mem_map.mp hc
  have hd2 : pyIsSpace d = false := by
    have := (List.mem_filter.mp hd).2
    simpa using this
  exact toUpper_not_space hd2

lemma strStarts_iff (p s : Str) : strStarts p s = true ↔ ∃ r, s = p ++ r := by
  induction p generalizing s with
  | nil => simp [strStarts]
  | cons c p' ih =>
    cases s with
    | nil => simp [strStarts]
    | cons d s' =>
      simp only [strStarts, Bool.and_eq_true, decide_eq_true_eq, ih, List.cons_append,
        List.cons.injEq]
      constructor
      · rintro ⟨rfl, r, rfl⟩; exact ⟨r, rfl, rfl⟩
      · rintro ⟨r, rfl, rfl⟩; exact ⟨rfl, r, rfl⟩

lemma strStarts_pyUpper_SI56 {s : Str} (h : strStarts "SI56".data s = true) :
    strStarts "SI56".data (pyUpper s) = true := by
  obtain ⟨r, rfl⟩ := (strStarts_iff _ _).mp h
  rw [pyUpper, List.map_append]
  have hm : List.map Char.toUpper "SI56".data = "SI56".data := by decide
  rw [hm]
  exact (strStarts_iff _ _).mpr ⟨_, rfl⟩

lemma v2_iban_ok {cur : Str}
    (h1 : matchIbanV2 (removeWhitespace cur) = true)
    (h2 : (removeWhitespace cur).length = 19) :
    IbanOk (normalize_iban cur) := by
  have hss : strStarts "SI56".data (removeWhitespace cur) = true := by
    rw [matchIbanV2, Bool.and_eq_true, Bool.and_eq_true] at h1
    exact h1.1.1
  refine ⟨?_, ?_, normalize_iban_no_space cur⟩
  · rw [normalize_iban_eq]
    exact strStarts_pyUpper_SI56 hss
  · rw [normalize_iban_eq, pyUpper, List.length_map, h2]

lemma v2FindIban_ok (lines : List Str) :
    ∀ fuel k, v2FindIban lines fuel k ≠ [] → IbanOk (v2FindIban lines fuel k) := by
  intro fuel
  induction fuel with
  | zero => intro k h; simp [v2FindIban] at h
  | succ fuel ih =>
    intro k h
    rw [v2FindIban] at h ⊢
    by_cases hc : matchIbanV2 (removeWhitespace (lines.getD k [])) = true ∧
        isSubstr "SI56".data (lines.getD k []) = true ∧
        (removeWhitespace (lines.getD k [])).length = 19
    · rw [if_pos hc]
      exact v2_iban_ok hc.1 hc.2.2
    · rw [if_neg hc] at h ⊢
      exact ih _ h

lemma v3IbanUpd_ok (lines : List Str) (k : Nat) {iban : Str}
    (h : iban = [] ∨ IbanOk iban) :
    v3IbanUpd lines k iban = [] ∨ IbanOk (v3IbanUpd lines k iban) := by
  rw [v3IbanUpd]
  by_cases hc : matchIbanV2 (removeWhitespace (lines.getD k [])) = true ∧
      isSubstr "SI56".data (lines.getD k []) = true ∧
      (removeWhitespace (lines.getD k [])).length = 19
  · rw [if_pos hc]
    exact Or.inr (v2_iban_ok hc.1 hc.2.2)
  · rw [if_neg hc]
    exact h

lemma v3FindIbanRef_ok (lines : List Str) :
    ∀ fuel k iban, (iban = [] ∨ IbanOk iban) →
      ((v3FindIbanRef lines fuel k iban).1 = [] ∨ IbanOk (v3FindIbanRef lines fuel k iban).1) := by
  intro fuel
  induction fuel with
  | zero => intro k iban h; simpa [v3FindIbanRef] using h
  | succ fuel ih =>
    intro k iban h
    rw [v3FindIbanRef]
    by_cases hc : matchSi19V2 (removeWhitespace (lines.getD k [])) = true
    · rw [if_pos hc]
      exact v3IbanUpd_ok lines k h
    · rw [if_neg hc]
      exact ih _ _ (v3IbanUpd_ok lines k h)

lemma v1Record_iban (iban : Str) (a : ℚ) (st : ScanV1) : (v1Record iban a st).iban = iban := rfl

lemma v1Record_amount (iban : Str) (a : ℚ) (st : ScanV1) : (v1Record iban a st).amount = a := rfl

lemma v2Record_iban (iban ref : Str) (a : ℚ) (st : ScanV2) :
    (v2Record iban ref a st).iban = iban := rfl

lemma v2Record_amount (iban ref : Str) (a : ℚ) (st : ScanV2) :
    (v2Record iban ref a st).amount = a := rfl

lemma v3Record_iban (iban ref : Str) (a : ℚ) (ns : List Str × Str) :
    (v3Record iban ref a ns).iban = iban := rfl

lemma v3Record_amount (iban ref : Str) (a : ℚ) (ns : List Str × Str) :
    (v3Record iban ref a ns).amount = a := rfl

lemma v1Finish_mem {iban : Str} {st : ScanV1} {p : UPNPayment} (h : p ∈ v1Finish iban st) :
    p.iban = iban ∧ 0 < p.amount := by
  rw [v1Finish] at h
  split at h
  · simp at h
  · rename_i a ha
    split at h
    · rename_i hg
      simp only [List.mem_singleton] at h
      subst h
      exact ⟨v1Record_iban iban a st, by rw [v1Record_amount iban a st]; exact hg.1⟩
    · simp at h

lemma v1Outer_inv (lines : List Str) :
    ∀ fuel i p, p ∈ v1Outer lines fuel i → IbanOk p.iban ∧ 0 < p.amount := by
  intro fuel
  induction fuel with
  | zero => intro i p h; simp [v1Outer] at h
  | succ fuel ih =>
    intro i p h
    rw [v1Outer] at h
    split at h
    · split at h
      · exact ih _ _ h
      · split at h
        · exact ih _ _ h
        · rename_i hlt hskip1 hskip2
          rw [List.mem_append] at h
          rcases h with h | h
          · push_neg at hskip2
            obtain ⟨hss, hlen⟩ := hskip2
            obtain ⟨hib, hpos⟩ := v1Finish_mem h
            refine ⟨?_, hpos⟩
            rw [hib]
            exact ⟨hss, hlen, normalize_iban_no_space _⟩
          · exact ih _ _ h
    · simp at h

lemma v2Outer_inv (lines : List Str) :
    ∀ fuel i seen p, p ∈ v2Outer lines fuel i seen → IbanOk p.iban ∧ 0 < p.amount := by
  intro fuel
  induction fuel with
  | zero => intro i seen p h; simp [v2Outer] at h
  | succ fuel ih =>
    intro i seen p h
    rw [v2Outer] at h
    split at h
    · split at h
      · exact ih _ _ _ h
      · split at h
        · exact ih _ _ _ h
        · split at h
          · exact ih _ _ _ h
          · rename_i a ha
            split at h
            · exact ih _ _ _ h
            · split at h
              · exact ih _ _ _ h
              · split at h
                · exact ih _ _ _ h
                · rename_i hle hib hseen
                  rw [List.mem_cons] at h
                  rcases h with rfl | h
                  · refine ⟨?_, ?_⟩
                    · rw [v2Record_iban]
                      exact v2FindIban_ok lines _ _ hib
                    · rw [v2Record_amount]
                      exact lt_of_not_le hle
                  · exact ih _ _ _ h
    · simp at h

lemma v3Outer_inv (lines : List Str) :
    ∀ fuel i seen p, p ∈ v3Outer lines fuel i seen → IbanOk p.iban ∧ 0 < p.amount := by
  intro fuel
  induction fuel with
  | zero => intro i seen p h; simp [v3Outer] at h
  | succ fuel ih =>
    intro i seen p h
    rw [v3Outer] at h
    split at h
    · split at h
      · exact ih _ _ _ h
      · split at h
        · exact ih _ _ _ h
        · rename_i a ha
          split at h
          · exact ih _ _ _ h
          · split at h
            · exact ih _ _ _ h
            · split at h
              · exact ih _ _ _ h
              · rename_i hle hpr hseen
                rw [List.mem_cons] at h
                rcases h with rfl | h
                · push_neg at hpr
                  refine ⟨?_, ?_⟩
                  · rw [v3Record_iban]
                    rcases v3FindIbanRef_ok lines _ _ [] (Or.inl rfl) with h' | h'
                    · exact absurd h' hpr.1
                    · exact h'
                  · rw [v3Record_amount]
                    exact lt_of_not_le hle
                · exact ih _ _ _ h
    · simp at h

/-- C9: every record produced by any of the three fallback text-layout
parsers has a strictly positive amount (amount lines are parsed by
stripping `*` padding, turning the comma into a period and parsing as a
decimal; non-positive or unparsable values never reach a record) and an
IBAN that begins with the literal "SI56", is exactly 19 characters long,
and contains no whitespace. -/
theorem C9_fallback_invariant (text : Str) (p : UPNPayment)
    (h : p ∈ extract_upn_payments text ∨ p ∈ extract_upn_payments_v2 text ∨
      p ∈ extract_upn_payments_from_text_fallback text) :
    0 < p.amount ∧ strStarts "SI56".data p.iban = true ∧ p.iban.length = 19 ∧
      ∀ c ∈ p.iban, pyIsSpace c = false := by
  have key : IbanOk p.iban ∧ 0 < p.amount := by
    rcases h with h | h | h
    · rw [extract_upn_payments] at h
      exact v1Outer_inv _ _ _ _ h
    · rw [extract_upn_payments_v2] at h
      exact v2Outer_inv _ _ _ _ _ h
    · rw [extract_upn_payments_from_text_fallback] at h
      exact v3Outer_inv _ _ _ _ _ h
  obtain ⟨⟨hss, hlen, hns⟩, hpos⟩ := key
  exact ⟨hpos, hss, hlen, hns⟩

def fbTextW : Str := "***28,74\nSI56110022334455667\nSI1912345-67890".data

def fbRecW : UPNPayment :=
  { recipient_name := "Recipient".data
    recipient_address := []
    iban := "SI56110022334455667".data
    amount := (2874 : ℚ) / 100
    reference := "SI1912345-67890".data
    purpose := "UPN payment".data
    payer_reference := [] }

/-- Witness for C9 at a concrete text parsed by the text fallback. -/
theorem C9_witness :
    0 < fbRecW.amount ∧ strStarts "SI56".data fbRecW.iban = true ∧ fbRecW.iban.length = 19 ∧
      ∀ c ∈ fbRecW.iban, pyIsSpace c = false :=
  C9_fallback_invariant fbTextW fbRecW (Or.inr (Or.inr (by with_unfolding_all decide)))

/-! ## C5: checksum-line stripping

The lemmas below relate `pyStrip`/`splitOnNL` on a newline-joined list of
lines to operations on the individual lines.  "Has a non-whitespace
character" is the condition under which global stripping stays inside the
first/last line. -/

lemma dropWhile_of_all {p : Char → Bool} {l : Str} (h : ∀ c ∈ l, p c = true) :
    l.dropWhile p = [] :=
  List.dropWhile_eq_nil_iff.mpr h

lemma dropWhile_ne_nil_of_exists {p : Char → Bool} {l : Str} (h : ∃ c ∈ l, p c = false) :
    l.dropWhile p ≠ [] := by
  intro h0
  obtain ⟨c, hc, hpc⟩ := h
  have := List.dropWhile_eq_nil_iff.mp h0 c hc
  rw [this] at hpc
  cases hpc

lemma dropWhile_head_false {p : Char → Bool} :
    ∀ {l : Str} {c : Char} {r : Str}, l.dropWhile p = c :: r → p c = false
  | [], c, r, h => by cases h
  | a :: t, c, r, h => by
    rw [List.dropWhile_cons] at h
    split at h
    · exact dropWhile_head_false h
    · cases h
      rename_i hp
      simpa using hp

lemma stripLeft_append {a y : Str} (h : ∃ c ∈ a, pyIsSpace c = false) :
    stripLeft (a ++ y) = stripLeft a ++ y := by
  rw [stripLeft, stripLeft, List.dropWhile_append,
    if_neg (by simpa [List.isEmpty_iff] using dropWhile_ne_nil_of_exists h)]

lemma stripRight_append {u v : Str} (h : ∃ c ∈ v, pyIsSpace c = false) :
    stripRight (u ++ v) = u ++ stripRight v := by
  have h' : ∃ c ∈ v.reverse, pyIsSpace c = false := by
    obtain ⟨c, hc, hpc⟩ := h
    exact ⟨c, List.mem_reverse.mpr hc, hpc⟩
  rw [stripRight, stripRight, List.reverse_append, List.dropWhile_append,
    if_neg (by simpa [List.isEmpty_iff] using dropWhile_ne_nil_of_exists h'),
    List.reverse_append, List.reverse_reverse]

lemma stripLeft_cons_ws {c : Char} {t : Str} (h : pyIsSpace c = true) :
    stripLeft (c :: t) = stripLeft t := by
  simp [stripLeft, List.dropWhile_cons, h]

lemma stripLeft_cons_not_ws {c : Char} {t : Str} (h : pyIsSpace c = false) :
    stripLeft (c :: t) = c :: t := by
  simp [stripLeft, List.dropWhile_cons, h]

lemma stripRight_all_ws {l : Str} (h : ∀ c ∈ l, pyIsSpace c = true) :
    stripRight l = [] := by
  rw [stripRight, dropWhile_of_all fun c hc => h c (List.mem_reverse.mp hc), List.reverse_nil]

lemma stripLeft_all_ws {l : Str} (h : ∀ c ∈ l, pyIsSpace c = true) :
    stripLeft l = [] :=
  dropWhile_of_all h

lemma stripRight_cons_of_exists {c : Char} {t : Str} (h : ∃ d ∈ t, pyIsSpace d = false) :
    stripRight (c :: t) = c :: stripRight t := by
  have h2 : stripRight ([c] ++ t) = [c] ++ stripRight t := stripRight_append h
  simpa using h2

lemma stripLeft_idem (s : Str) : stripLeft (stripLeft s) = stripLeft s := by
  induction s with
  | nil => rfl
  | cons c t ih =>
    by_cases h : pyIsSpace c = true
    · rw [stripLeft_cons_ws h, ih]
    · rw [Bool.not_eq_true] at h
      rw [stripLeft_cons_not_ws h, stripLeft_cons_not_ws h]

lemma stripRight_idem (s : Str) : stripRight (stripRight s) = stripRight s := by
  rw [stripRight, stripRight, List.reverse_reverse]
  have := stripLeft_idem s.reverse
  rw [stripLeft, stripLeft] at this
  rw [this]

lemma stripLeft_stripRight_comm (s : Str) :
    stripLeft (stripRight s) = stripRight (stripLeft s) := by
  induction s with
  | nil => rfl
  | cons c t ih =>
    by_cases hc : pyIsSpace c = true
    · by_cases hnw : ∃ d ∈ t, pyIsSpace d = false
      · have hsr : stripRight (c :: t) = c :: stripRight t := stripRight_cons_of_exists hnw
        rw [hsr, stripLeft_cons_ws hc, stripLeft_cons_ws hc, ih]
      · push_neg at hnw
        have hall : ∀ d ∈ t, pyIsSpace d = true := by
          intro d hd
          have := hnw d hd
          simpa [Bool.not_eq_false] using this
        rw [stripRight_all_ws (by
            intro d hd
            rcases List.mem_cons.mp hd with rfl | hd
            · exact hc
            · exact hall d hd),
          stripLeft_cons_ws hc, stripLeft_all_ws hall]
        rfl
    · rw [Bool.not_eq_true] at hc
      rw [stripLeft_cons_not_ws hc]
      by_cases hnw : ∃ d ∈ t, pyIsSpace d = false
      · rw [stripRight_cons_of_exists hnw]
        exact stripLeft_cons_not_ws hc
      · push_neg at hnw
        have hall : ∀ d ∈ t, pyIsSpace d = true := by
          intro d hd
          have := hnw d hd
          simpa [Bool.not_eq_false] using this
        have h1 : stripRight (c :: t) = [c] := by
          rw [stripRight, List.reverse_cons, List.dropWhile_append,
            if_pos (by simp [List.isEmpty_iff, dropWhile_of_all
              fun d hd => hall d (List.mem_reverse.mp hd)])]
          simp [List.dropWhile_cons, hc]
        rw [h1]
        exact stripLeft_cons_not_ws hc

lemma pyStrip_stripLeft (a : Str) : pyStrip (stripLeft a) = pyStrip a := by
  simp only [pyStrip]
  rw [← stripLeft_stripRight_comm, stripLeft_idem]

lemma pyStrip_stripRight (z : Str) : pyStrip (stripRight z) = pyStrip z := by
  rw [pyStrip, pyStrip, stripRight_idem]

lemma pyStrip_idem (s : Str) : pyStrip (pyStrip s) = pyStrip s :=
  (pyStrip_stripLeft (stripRight s)).trans (pyStrip_stripRight s)

lemma pyStrip_no_ws {l : Str} (h : ∀ c ∈ l, pyIsSpace c = false) : pyStrip l = l := by
  have hr : stripRight l = l := by
    rw [stripRight]
    cases hrev : l.reverse with
    | nil => simpa using congrArg List.reverse hrev
    | cons c r =>
      rw [List.dropWhile_cons, if_neg (by
        rw [h c (List.mem_reverse.mp (hrev ▸ List.mem_cons_self c r))]
        simp)]
      rw [← hrev, List.reverse_reverse]
  rw [pyStrip, hr, stripLeft]
  cases l with
  | nil => rfl
  | cons c t =>
    rw [List.dropWhile_cons, if_neg (by rw [h c (List.mem_cons_self c t)]; simp)]

lemma splitOnNL_nlfree {l : Str} (h : ∀ c ∈ l, ¬ c = '\n') : splitOnNL l = [l] := by
  induction l with
  | nil => rfl
  | cons c t ih =>
    rw [splitOnNL, if_neg (h c (List.mem_cons_self c t)),
      ih fun d hd => h d (List.mem_cons_of_mem c hd)]

lemma splitOnNL_append {l : Str} (r : Str) (h : ∀ c ∈ l, ¬ c = '\n') :
    splitOnNL (l ++ '\n' :: r) = l :: splitOnNL r := by
  induction l with
  | nil => simp [splitOnNL]
  | cons c t ih =>
    rw [List.cons_append, splitOnNL, if_neg (h c (List.mem_cons_self c t)),
      ih fun d hd => h d (List.mem_cons_of_mem c hd)]

lemma joinNL_cons {x : Str} {t : List Str} (h : t ≠ []) :
    joinNL (x :: t) = x ++ '\n' :: joinNL t := by
  cases t with
  | nil => exact absurd rfl h
  | cons y t' => rfl

lemma splitOnNL_joinNL {t : List Str} (ht : t ≠ [])
    (hnl : ∀ l ∈ t, ∀ c ∈ l, ¬ c = '\n') : splitOnNL (joinNL t) = t := by
  induction t with
  | nil => exact absurd rfl ht
  | cons x t' ih =>
    cases t' with
    | nil => exact splitOnNL_nlfree (hnl x (List.mem_cons_self x []))
    | cons y t'' =>
      rw [joinNL_cons (by simp), splitOnNL_append _ (hnl x (List.mem_cons_self x _)),
        ih (by simp) fun l hl => hnl l (List.mem_cons_of_mem x hl)]

lemma mem_joinNL {t : List Str} {l : Str} {c : Char} (hl : l ∈ t) (hc : c ∈ l) :
    c ∈ joinNL t := by
  induction t with
  | nil => cases hl
  | cons x t' ih =>
    cases t' with
    | nil =>
      rcases List.mem_cons.mp hl with rfl | h
      · exact hc
      · cases h
    | cons y t'' =>
      rw [joinNL_cons (by simp)]
      rcases List.mem_cons.mp hl with rfl | h
      · exact List.mem_append_left _ hc
      · exact List.mem_append_right _ (List.mem_cons_of_mem _ (ih h))

lemma getLastD_concat (x : Str) : ∀ (l : List Str) (d : Str), (l ++ [x]).getLastD d = x
  | [], _ => rfl
  | a :: l, d => by
    rw [List.cons_append, List.getLastD_cons, getLastD_concat x l a]

lemma getLastD_cons_of_ne (d' : Str) {x d : Str} {t : List Str} (h : t ≠ []) :
    (x :: t).getLastD d = t.getLastD d' := by
  cases t with
  | nil => exact absurd rfl h
  | cons y t' => rfl

lemma getLastD_mem (d : Str) : ∀ (t : List Str), t ≠ [] → t.getLastD d ∈ t
  | [], h => absurd rfl h
  | [x], _ => by simp
  | x :: y :: t'', _ => by
    rw [getLastD_cons_of_ne d (by simp)]
    exact List.mem_cons_of_mem x (getLastD_mem d (y :: t'') (by simp))

lemma dropLast_append_getLastD (d : Str) : ∀ (t : List Str), t ≠ [] →
    t.dropLast ++ [t.getLastD d] = t
  | [], h => absurd rfl h
  | [x], _ => by simp
  | x :: y :: t'', _ => by
    rw [getLastD_cons_of_ne d (show (y :: t'' : List Str) ≠ [] by simp),
      show (x :: y :: t'').dropLast = x :: (y :: t'').dropLast from rfl, List.cons_append,
      dropLast_append_getLastD d (y :: t'') (by simp)]

lemma hasNonWS_stripRight {z : Str} (h : ∃ c ∈ z, pyIsSpace c = false) :
    ∃ c ∈ stripRight z, pyIsSpace c = false := by
  have hne : z.reverse.dropWhile pyIsSpace ≠ [] := by
    apply dropWhile_ne_nil_of_exists
    obtain ⟨c, hc, hpc⟩ := h
    exact ⟨c, List.mem_reverse.mpr hc, hpc⟩
  cases hd : z.reverse.dropWhile pyIsSpace with
  | nil => exact absurd hd hne
  | cons c r =>
    refine ⟨c, ?_, dropWhile_head_false hd⟩
    rw [stripRight, hd]
    simp

lemma mem_stripRight {z : Str} {c : Char} (h : c ∈ stripRight z) : c ∈ z := by
  rw [stripRight] at h
  rw [List.mem_reverse] at h
  exact List.mem_reverse.mp ((List.dropWhile_sublist _).mem h)

lemma mem_stripLeft {z : Str} {c : Char} (h : c ∈ stripLeft z) : c ∈ z :=
  (List.dropWhile_sublist _).mem h

lemma stripRight_joinNL : ∀ {t : List Str}, t ≠ [] →
    (∃ c ∈ t.getLastD [], pyIsSpace c = false) →
    stripRight (joinNL t) = joinNL (t.dropLast ++ [stripRight (t.getLastD [])]) := by
  intro t
  induction t with
  | nil => intro h; exact absurd rfl h
  | cons x t' ih =>
    intro _ hl
    cases ht' : t' with
    | nil => simp [joinNL, List.getLastD_cons]
    | cons y t'' =>
      subst ht'
      rw [getLastD_cons_of_ne [] (show (y :: t'' : List Str) ≠ [] by simp)] at hl ⊢
      have hnw : ∃ c ∈ joinNL (y :: t''), pyIsSpace c = false := by
        obtain ⟨c, hc, hpc⟩ := hl
        exact ⟨c, mem_joinNL (getLastD_mem [] (y :: t'') (by simp)) hc, hpc⟩
      have hnw2 : ∃ c ∈ '\n' :: joinNL (y :: t''), pyIsSpace c = false := by
        obtain ⟨c, hc, hpc⟩ := hnw
        exact ⟨c, List.mem_cons_of_mem _ hc, hpc⟩
      rw [joinNL_cons (by simp), stripRight_append hnw2, stripRight_cons_of_exists hnw,
        ih (by simp) hl, show (x :: y :: t'').dropLast = x :: (y :: t'').dropLast from rfl,
        List.cons_append, joinNL_cons (by simp)]

lemma stripLeft_joinNL {t : List Str} (ht : t ≠ [])
    (hh : ∃ c ∈ t.headD [], pyIsSpace c = false) :
    stripLeft (joinNL t) = joinNL (stripLeft (t.headD []) :: t.tail) := by
  cases t with
  | nil => exact absurd rfl ht
  | cons x t' =>
    cases t' with
    | nil => rfl
    | cons y t'' =>
      rw [joinNL_cons (show (y :: t'' : List Str) ≠ [] by simp),
        stripLeft_append (by simpa using hh)]
      exact (joinNL_cons (show (y :: t'' : List Str) ≠ [] by simp)).symm

/-- Stripping then splitting a newline-join of lines whose first and last
lines contain a non-whitespace character, then stripping each piece,
gives the same result as stripping each line directly. -/
lemma lines0_joinNL {t : List Str} (ht : t ≠ [])
    (hnl : ∀ l ∈ t, ∀ c ∈ l, ¬ c = '\n')
    (hh : ∃ c ∈ t.headD [], pyIsSpace c = false)
    (hl : ∃ c ∈ t.getLastD [], pyIsSpace c = false) :
    (splitOnNL (pyStrip (joinNL t))).map pyStrip = t.map pyStrip := by
  cases t with
  | nil => exact absurd rfl ht
  | cons a t' =>
    cases t' with
    | nil =>
      have hfree : ∀ c ∈ pyStrip a, ¬ c = '\n' := fun c hc =>
        hnl a (List.mem_cons_self a []) c (mem_stripRight (mem_stripLeft hc))
      rw [show joinNL [a] = a from rfl, splitOnNL_nlfree hfree]
      simp [pyStrip_idem]
    | cons b t'' =>
      have h1 : stripRight (joinNL (a :: b :: t'')) =
          joinNL ((a :: b :: t'').dropLast ++ [stripRight ((a :: b :: t'').getLastD [])]) :=
        stripRight_joinNL (by simp) hl
      rw [getLastD_cons_of_ne [] (show (b :: t'' : List Str) ≠ [] by simp)] at h1
      have h2 : stripLeft (joinNL (a :: ((b :: t'').dropLast ++
            [stripRight ((b :: t'').getLastD [])]))) =
          joinNL (stripLeft a :: ((b :: t'').dropLast ++
            [stripRight ((b :: t'').getLastD [])])) :=
        stripLeft_joinNL (by simp) hh
      have hmemlast : (b :: t'').getLastD [] ∈ (b :: t'' : List Str) :=
        getLastD_mem [] (b :: t'') (by simp)
      have hfree2 : ∀ l ∈ stripLeft a :: ((b :: t'').dropLast ++
          [stripRight ((b :: t'').getLastD [])]), ∀ c ∈ l, ¬ c = '\n' := by
        intro l hlm c hc
        rcases List.mem_cons.mp hlm with rfl | hlm
        · exact hnl a (List.mem_cons_self a _) c (mem_stripLeft hc)
        · rcases List.mem_append.mp hlm with hlm | hlm
          · exact hnl l (List.mem_cons_of_mem a ((List.dropLast_sublist _).mem hlm)) c hc
          · rw [List.mem_singleton] at hlm
            subst hlm
            exact hnl _ (List.mem_cons_of_mem a hmemlast) c (mem_stripRight hc)
      have h3 : splitOnNL (joinNL (stripLeft a :: ((b :: t'').dropLast ++
            [stripRight ((b :: t'').getLastD [])]))) =
          stripLeft a :: ((b :: t'').dropLast ++ [stripRight ((b :: t'').getLastD [])]) :=
        splitOnNL_joinNL (by simp) hfree2
      have hsplit : splitOnNL (pyStrip (joinNL (a :: b :: t''))) =
          stripLeft a :: ((b :: t'').dropLast ++ [stripRight ((b :: t'').getLastD [])]) := by
        rw [pyStrip, h1]
        rw [show (a :: b :: t'').dropLast ++ [stripRight ((b :: t'').getLastD [])] =
          a :: ((b :: t'').dropLast ++ [stripRight ((b :: t'').getLastD [])]) from rfl]
        rw [h2, h3]
      have htail : List.map pyStrip ((b :: t'').dropLast ++ [(b :: t'').getLastD []]) =
          List.map pyStrip (b :: t'') := by
        rw [dropLast_append_getLastD [] (b :: t'') (by simp)]
      rw [hsplit, List.map_cons, List.map_cons, pyStrip_stripLeft, ← htail,
        List.map_append, List.map_append]
      simp [pyStrip_stripRight]

/-- Counterexample to C5: a 20-line input whose last line is the 3-digit
checksum "123" and whose 19th line is empty.  With the checksum line the
global `strip()` leaves all 20 lines intact and the checksum is dropped,
giving a valid 19-line payload; without it, `strip()` also eats the
empty 19th line, leaving 18 lines, and the parse fails. -/
theorem C5_counterexample :
    parse_unp_qr_content ("UPNQR\n\n\n\n\n\n\n\n00000002874\n\n\nOTHR\nPrispevek za DO\n\nSI56110022334455667\nSI19 12345-67890\nJANEZ NOVAK\nDUNAJSKA 1\n\n123".data) ≠
      parse_unp_qr_content ("UPNQR\n\n\n\n\n\n\n\n00000002874\n\n\nOTHR\nPrispevek za DO\n\nSI56110022334455667\nSI19 12345-67890\nJANEZ NOVAK\nDUNAJSKA 1\n".data) := by
  with_unfolding_all decide

/-- C5 as amended: a 20-line input whose last line is exactly 3 ASCII
digits parses identically to the same input with that line removed,
provided the first and the nineteenth lines each contain a
non-whitespace character (otherwise the whole-payload `strip()` can eat
leading/trailing empty lines of the checksum-less variant, as the
counterexample shows). -/
theorem C5_amended_checksum_strip (ls : List Str) (chk : Str)
    (hlen : ls.length = 19)
    (hnl : ∀ l ∈ ls, ∀ c ∈ l, ¬ c = '\n')
    (hchk3 : chk.length = 3)
    (hchkd : ∀ c ∈ chk, c.isDigit = true)
    (hhead : ∃ c ∈ ls.headD [], pyIsSpace c = false)
    (hlast : ∃ c ∈ ls.getLastD [], pyIsSpace c = false) :
    parse_unp_qr_content (joinNL (ls ++ [chk])) = parse_unp_qr_content (joinNL ls) := by
  have hlsne : ls ≠ [] := by intro h0; rw [h0] at hlen; simp at hlen
  cases chk with
  | nil => simp at hchk3
  | cons c0 r0 =>
    have hchk_nws : ∀ c ∈ c0 :: r0, pyIsSpace c = false := by
      intro c hc
      cases hws : pyIsSpace c with
      | false => rfl
      | true =>
        have := pyIsSpace_not_isDigit hws
        rw [hchkd c hc] at this
        cases this
    have hchk_nl : ∀ c ∈ c0 :: r0, ¬ c = '\n' := by
      intro c hc heq
      subst heq
      have := hchkd _ hc
      exact absurd this (by decide)
    have htA_nl : ∀ l ∈ ls ++ [c0 :: r0], ∀ c ∈ l, ¬ c = '\n' := by
      intro l hlm
      rcases List.mem_append.mp hlm with hlm | hlm
      · exact hnl l hlm
      · rw [List.mem_singleton] at hlm
        subst hlm
        exact hchk_nl
    have hheadA : ∃ c ∈ (ls ++ [c0 :: r0]).headD [], pyIsSpace c = false := by
      cases ls with
      | nil => exact absurd rfl hlsne
      | cons a ls' => exact hhead
    have hlastA : ∃ c ∈ (ls ++ [c0 :: r0]).getLastD [], pyIsSpace c = false := by
      rw [getLastD_concat]
      exact ⟨c0, List.mem_cons_self c0 r0, hchk_nws c0 (List.mem_cons_self c0 r0)⟩
    have hmA := lines0_joinNL (show (ls ++ [c0 :: r0] : List Str) ≠ [] by simp) htA_nl hheadA hlastA
    have hmB := lines0_joinNL hlsne hnl hhead hlast
    have hstripchk : pyStrip (c0 :: r0) = c0 :: r0 := pyStrip_no_ws hchk_nws
    have hdig : pyIsDigitStr (c0 :: r0) = true := by
      simp only [pyIsDigitStr, Bool.and_eq_true, List.all_eq_true]
      exact ⟨by simp, hchkd⟩
    have hA : upnLines (joinNL (ls ++ [c0 :: r0])) = List.map pyStrip ls := by
      simp only [upnLines]
      rw [hmA, List.map_append, show List.map pyStrip [c0 :: r0] = [pyStrip (c0 :: r0)] from rfl,
        hstripchk, if_pos]
      · rw [List.dropLast_concat]
      · refine ⟨?_, ?_, ?_⟩
        · simp [List.length_append, List.length_map, hlen]
        · rw [getLastD_concat]
          exact hdig
        · rw [getLastD_concat]
          exact hchk3
    have hB : upnLines (joinNL ls) = List.map pyStrip ls := by
      simp only [upnLines]
      rw [hmB, if_neg]
      rintro ⟨hgt, -⟩
      rw [List.length_map, hlen] at hgt
      omega
    have hstripA : pyStrip (joinNL (ls ++ [c0 :: r0])) ≠ [] := by
      intro h0
      have hlenA := congrArg List.length hmA
      rw [h0] at hlenA
      simp only [splitOnNL, List.length_map, List.length_append, List.length_cons,
        List.length_nil, hlen] at hlenA
      omega
    have hstripB : pyStrip (joinNL ls) ≠ [] := by
      intro h0
      have hlenB := congrArg List.length hmB
      rw [h0] at hlenB
      simp only [splitOnNL, List.length_map, List.length_cons, List.length_nil, hlen] at hlenB
      omega
    have hguardA : ¬ (joinNL (ls ++ [c0 :: r0]) = [] ∨ pyStrip (joinNL (ls ++ [c0 :: r0])) = []) := by
      rintro (h0 | h0)
      · exact hstripA (by rw [h0]; rfl)
      · exact hstripA h0
    have hguardB : ¬ (joinNL ls = [] ∨ pyStrip (joinNL ls) = []) := by
      rintro (h0 | h0)
      · exact hstripB (by rw [h0]; rfl)
      · exact hstripB h0
    rw [parse_unp_qr_content, if_neg hguardA, parse_unp_qr_content, if_neg hguardB, hA, hB]

/-- The 19 lines of the literal scenario, as a line list. -/
def wsLines19 : List Str :=
  ["UPNQR".data, [], [], [], [], [], [], [], "00000002874".data, [], [],
   "OTHR".data, "Prispevek za DO".data, [], "SI56110022334455667".data,
   "SI19 12345-67890".data, "JANEZ NOVAK".data, "DUNAJSKA 1".data, "LJUBLJANA".data]

/-- Witness for the amended C5 at the literal scenario plus checksum
line "123". -/
theorem C5_witness :
    parse_unp_qr_content (joinNL (wsLines19 ++ ["123".data])) =
      parse_unp_qr_content (joinNL wsLines19) :=
  C5_amended_checksum_strip wsLines19 "123".data (by decide) (by decide) (by decide)
    (by decide) (by decide) (by decide)
